import Mathlib

/-!
Verification of the McApp gateway daemon (DK5EN/McApp) against its
natural-language specification.

Shallow embedding: the Python functions named in the claims are translated
into executable Lean definitions.  Python `str` becomes `String`, with all
character-level processing done on `String.data : List Char` by the
structural-recursive primitives below (Python's `upper`, `strip`, `split`,
`in`, slicing, `len(s.encode("utf-8"))` and so on); Python `float`
timestamps become `Rat`; millisecond timestamps become `Int`; Python `dict`
rows become structures; SQL tables become `List`s of rows in rowid
(insertion) order; `None`-able values become `Option`.  The regexes of the
source are compiled by hand into decidable predicates (the character
classes involved are disjoint, so the greedy matches are deterministic and
the translation is direct).
-/

namespace McApp

/-- ASCII uppercase letter, the `[A-Z]` character class. -/
def isUpperAlpha (c : Char) : Bool := 'A' ≤ c && c ≤ 'Z'

/-- ASCII digit, the `[0-9]` / `\d` character class. -/
def isDigitCh (c : Char) : Bool := '0' ≤ c && c ≤ '9'

/-- Python `s.upper()` (ASCII range; the callsigns and commands handled by
the gateway are ASCII). -/
def pyUpper (s : String) : String := String.mk (s.data.map Char.toUpper)

/-- Python `s.strip()`: drop whitespace from both ends. -/
def pyStrip (s : String) : String :=
  String.mk (((s.data.dropWhile Char.isWhitespace).reverse.dropWhile
    Char.isWhitespace).reverse)

/-- Python `s.isdigit()` restricted to ASCII: nonempty and all digits. -/
def pyIsDigit (s : String) : Bool := s ≠ "" && s.data.all isDigitCh

/-- Numeric value of an ASCII digit string (Python `int(s)` for digit strings). -/
def digitsToNat (s : String) : Nat :=
  s.data.foldl (fun a c => a * 10 + (c.toNat - 48)) 0

/-- `l₂` begins with `l₁` (Python `startswith` at the char-list level). -/
def listStartsWith : List Char → List Char → Bool
  | [], _ => true
  | _ :: _, [] => false
  | a :: as, b :: bs => a = b && listStartsWith as bs

/-- Python `s.startswith(p)`. -/
def pyStartsWith (s p : String) : Bool := listStartsWith p.data s.data

/-- Python `s[n:]` (character slicing). -/
def pyDrop (s : String) (n : Nat) : String := String.mk (s.data.drop n)

/-- Python `s.split()`: split on whitespace runs, dropping empty tokens. -/
def splitWsAux : List Char → List Char → List (List Char)
  | [], acc => if acc.isEmpty then [] else [acc.reverse]
  | c :: rest, acc =>
      if c.isWhitespace then
        if acc.isEmpty then splitWsAux rest [] else acc.reverse :: splitWsAux rest []
      else splitWsAux rest (c :: acc)

/-- Python `s.split()` on a `String`. -/
def pySplit (s : String) : List String :=
  (splitWsAux s.data []).map String.mk

/-- Worker for `pySplitOn`: scan left to right for the separator `s :: ss`.
The first argument is fuel (initially the length of the scanned list, which
strictly bounds the number of steps); recursion is structural on it so that
the kernel can evaluate the definition. -/
def splitOnGo (s : Char) (ss : List Char) : Nat → List Char → List Char → List (List Char)
  | _, [], acc => [acc.reverse]
  | 0, l, acc => [acc.reverse ++ l]
  | fuel + 1, c :: rest, acc =>
      if listStartsWith (s :: ss) (c :: rest) then
        acc.reverse :: splitOnGo s ss fuel (rest.drop ss.length) []
      else
        splitOnGo s ss fuel rest (c :: acc)

/-- Python `s.split(sep)` for a nonempty separator. -/
def pySplitOn (s sep : String) : List String :=
  match sep.data with
  | [] => [s]
  | c :: cs => (splitOnGo c cs s.data.length s.data []).map String.mk

/-- Python `sub in s` for a one-character `sub`. -/
def pyContainsChar (s : String) (c : Char) : Bool := s.data.any (· = c)

/-- Lexicographic strict order on char lists by code point (Python `<` on `str`). -/
def lexLt : List Char → List Char → Bool
  | [], [] => false
  | [], _ :: _ => true
  | _ :: _, [] => false
  | a :: as, b :: bs => if a = b then lexLt as bs else decide (a < b)

/-- Python `len(s.encode("utf-8"))` for one character. -/
def utf8Len (c : Char) : Nat :=
  if c.toNat < 0x80 then 1
  else if c.toNat < 0x800 then 2
  else if c.toNat < 0x10000 then 3
  else 4

/-- Python `len(s.encode("utf-8"))`. -/
def utf8ByteLen (s : String) : Nat := (s.data.map utf8Len).sum

/-- Worker for `natToStr`; the first argument is fuel bounding the number
of decimal digits, so recursion is structural and kernel-evaluable. -/
def natDigitsGo : Nat → Nat → List Char → List Char
  | 0, _, acc => acc
  | fuel + 1, m, acc =>
      if m = 0 then acc
      else natDigitsGo fuel (m / 10) (Char.ofNat (m % 10 + 48) :: acc)

/-- Decimal string of a natural number (Python `str(n)` / f-string). -/
def natToStr (n : Nat) : String :=
  if n = 0 then "0" else String.mk (natDigitsGo n n [])

namespace Validator

/-!
`MessageValidator` (src/mcapp/main.py).  `my` stands for `self.my_callsign`,
which `__init__` stores uppercased.
-/

/-- The callsign regex of `extract_target_callsign` (main.py):
`^(?=.*[A-Z])(?=.*[0-9])[A-Z0-9]{3,8}(-\d{1,2})?$`.
The body before an optional `-` is 3 to 8 chars of `[A-Z0-9]`; the optional
suffix is `-` plus 1 or 2 digits; the two lookaheads require an uppercase
letter and a digit anywhere in the whole string. -/
def callsignTargetPattern (s : String) : Bool :=
  let cs := s.data
  let main := cs.takeWhile (fun c => c ≠ '-')
  let rest := cs.drop main.length
  main.all (fun c => isUpperAlpha c || isDigitCh c)
    && decide (3 ≤ main.length) && decide (main.length ≤ 8)
    && (match rest with
        | [] => true
        | '-' :: ds => ds.all isDigitCh && decide (1 ≤ ds.length) && decide (ds.length ≤ 2)
        | _ => false)
    && cs.any isUpperAlpha && cs.any isDigitCh

/-- `MessageValidator.extract_target_callsign` (main.py).
Priority 1: the first `TARGET:`-token anywhere in the arguments decides.
Priority 2: right-to-left scan of the arguments, skipping `key:value`
tokens, first token matching the callsign pattern. -/
def extract_target_callsign (msg : String) : Option String :=
  if msg = "" || ¬ pyStartsWith msg "!" then none
  else
    let msgUpper := pyStrip (pyUpper msg)
    let parts := pySplit msgUpper
    if parts.length < 2 then none
    else
      let command := pyDrop (match parts with | [] => "" | p :: _ => p) 1
      if command = "GROUP" || command = "KB" || command = "TOPIC" then none
      else
        match parts.tail.find? (fun p => pyStartsWith p "TARGET:") with
        | some part =>
            let potential := pyDrop part 7
            if potential = "LOCAL" || potential = "" then none
            else if callsignTargetPattern potential then some potential
            else none
        | none =>
            (parts.tail.reverse.find?
              (fun p => ¬ pyContainsChar p ':' && callsignTargetPattern (pyStrip p))).map
              pyStrip

/-- `MessageValidator.is_group` (main.py): `TEST` or a numeric group 1–99999. -/
def is_group (dst : String) : Bool :=
  if dst = "" then false
  else if pyUpper dst = "TEST" then true
  else if pyIsDigit dst then
    let n := digitsToNat dst
    decide (1 ≤ n) && decide (n ≤ 99999)
  else false

/-- The destination callsign regex of `is_valid_destination` (main.py):
`^[A-Z0-9]{2,8}(-\d{1,2})?$`. -/
def dstCallsignPattern (s : String) : Bool :=
  let cs := s.data
  let main := cs.takeWhile (fun c => c ≠ '-')
  let rest := cs.drop main.length
  main.all (fun c => isUpperAlpha c || isDigitCh c)
    && decide (2 ≤ main.length) && decide (main.length ≤ 8)
    && (match rest with
        | [] => true
        | '-' :: ds => ds.all isDigitCh && decide (1 ≤ ds.length) && decide (ds.length ≤ 2)
        | _ => false)

/-- `MessageValidator.is_valid_destination` (main.py). -/
def is_valid_destination (dst : String) : Bool :=
  if dst = "" then false
  else if dst = "*" || dst = "ALL" then false
  else if dstCallsignPattern dst then true
  else if is_group dst then true
  else false

/-- `MessageValidator.is_command` (main.py). -/
def is_command (msg : String) : Bool := msg ≠ "" && pyStartsWith msg "!"

/-- `MessageValidator.should_suppress_outbound` (main.py): the suppression
oracle for outbound messages. -/
def should_suppress_outbound (my src dst msg : String) : Bool :=
  if src ≠ my then false
  else if ¬ is_command msg then false
  else if ¬ is_valid_destination dst then true
  else
    match extract_target_callsign msg with
    | none => true
    | some target => target = my

/-- The suppression oracle as the claim words it: rule 3 suppresses exactly
when the destination is `*`, `ALL` or empty; any other destination falls
through to target extraction.  (This definition follows the SPEC text, for
comparison with `should_suppress_outbound` above.) -/
def claimSuppressionOracle (my src dst msg : String) : Bool :=
  if src ≠ my then false
  else if ¬ is_command msg then false
  else if dst = "*" || dst = "ALL" || dst = "" then true
  else
    match extract_target_callsign msg with
    | none => true
    | some target => target = my

end Validator

namespace Storage

/-!
`sqlite_storage.py`: `compute_conversation_key` and `SQLiteStorage`.
-/

/-- Python `s.split("-")[0]`: the base callsign with the SSID stripped. -/
def baseCallsign (s : String) : String := String.mk (s.data.takeWhile (· ≠ '-'))

/-- `compute_conversation_key` (sqlite_storage.py): groups map to the
destination, DMs to the sorted base-callsign pair joined with `<>`
(`sorted` in Python compares strings lexicographically by code point). -/
def compute_conversation_key (src dst : String) : Option String :=
  if dst = "" then none
  else if pyIsDigit dst || dst = "TEST" then some dst
  else if dst = "*" then some "*"
  else
    let base_src := baseCallsign src
    let base_dst := baseCallsign dst
    if lexLt base_dst.data base_src.data then some (base_dst ++ "<>" ++ base_src)
    else some (base_src ++ "<>" ++ base_dst)

/-- The claim's notion of a group destination: all digits, `TEST`, or `*`. -/
def isGroupDst (d : String) : Bool := pyIsDigit d || d = "TEST" || d = "*"

/-- Python `sub in s` (substring containment). -/
def containsSubList (sub : List Char) : List Char → Bool
  | [] => sub.isEmpty
  | c :: rest => listStartsWith sub (c :: rest) || containsSubList sub rest

/-- Python `sub in s` on `String`s. -/
def pyContains (s sub : String) : Bool := containsSubList sub.data s.data

/-- `", ".join(strings)` and friends. -/
def joinSep (sep : String) : List String → String
  | [] => ""
  | [x] => x
  | x :: xs => x ++ sep ++ joinSep sep xs

/-- `DEDUP_WINDOW_MS = 20 * 60 * 1000` (sqlite_storage.py). -/
def DEDUP_WINDOW_MS : Int := 20 * 60 * 1000

/-- The MHeard throttle window, `throttle_ms = 120_000` (sqlite_storage.py). -/
def MHEARD_THROTTLE_MS : Int := 120000

/-- One row of the `messages` table (the columns `store_message` inserts). -/
structure Row where
  msg_id : Option Nat
  src : String
  dst : String
  msg : String
  typ : String
  timestamp : Int
  rssi : Option Int
  snr : Option Rat
  src_type : String
  raw : String
  via : String
  hw_id : Option Int
  lora_mod : Option Int
  max_hop : Option Int
  mesh_info : Option Int
  firmware : Option String
  fw_sub : Option String
  last_hw_id : Option Int
  last_sending : Option String
  transformer : Option String
  echo_id : Option String
  conversation_key : Option String
  acked : Bool
  send_success : Bool
deriving DecidableEq

/-- The fields `store_message` reads from the incoming message dict.
`msg_id` is the 32-bit wire id (`Option Nat`; Python also treats `0` as
falsy, see `msgIdFalsy`); a missing `timestamp` defaults to now. -/
structure Msg where
  msg_id : Option Nat
  src : String
  dst : String
  msg : String
  typ : String
  timestamp : Option Int
  rssi : Option Int
  snr : Option Rat
  src_type : String
  via : String
  hw_id : Option Int
  lora_mod : Option Int
  max_hop : Option Int
  mesh_info : Option Int
  firmware : Option String
  fw_sub : Option String
  last_hw_id : Option Int
  last_sending : Option String
  transformer : Option String
  ack_id : Option Nat
deriving DecidableEq

/-- Python truthiness of `msg_id` (`not msg_id`): absent or zero. -/
def msgIdFalsy : Option Nat → Bool
  | none => true
  | some n => n = 0

/-- `SQLiteStorage._should_filter_message` (sqlite_storage.py). -/
def should_filter_message (m : Msg) : Bool :=
  pyStartsWith m.msg "\x7bCET\x7d" || m.src_type = "BLE"
    || m.transformer = some "generic_ble" || m.src = "response"
    || m.src_type = "TEST" || m.msg = "-- invalid character --"
    || pyContains m.msg "No core dump"

/-- `re.search(r'\{(\d+)$', msg)`: the `{NNN` echo-id suffix.  (The brace
is written `Char.ofNat 123`.) -/
def extractEchoId (msg : String) : Option String :=
  let rcs := msg.data.reverse
  let ds := rcs.takeWhile isDigitCh
  match rcs.drop ds.length with
  | c :: _ =>
      if c = Char.ofNat 123 && ¬ ds.isEmpty then some (String.mk ds.reverse) else none
  | [] => none

/-- `re.search(r':ack(\d+)', msg)`: first `:ack` followed by at least one
digit, capturing the maximal digit run. -/
def findAckNum : List Char → Option String
  | ':' :: 'a' :: 'c' :: 'k' :: rest =>
      let ds := rest.takeWhile isDigitCh
      if ds.isEmpty then findAckNum ('a' :: 'c' :: 'k' :: rest)
      else some (String.mk ds)
  | _ :: rest => findAckNum rest
  | [] => none

/-- `SELECT id … ORDER BY timestamp DESC LIMIT 1` over rows satisfying `p`:
index and row of the matching row with the greatest timestamp; among equal
timestamps the later row (greater rowid) wins, as a descending index scan
returns it first. -/
def selectLatest (p : Row → Bool) : List Row → Option (Nat × Row)
  | [] => none
  | r :: rest =>
      match selectLatest p rest with
      | none => if p r then some (0, r) else none
      | some (j, rj) =>
          if p r && decide (rj.timestamp < r.timestamp) then some (0, r)
          else some (j + 1, rj)

/-- Replace row `i` by `f` of it (an SQL `UPDATE … WHERE id = i`). -/
def modifyAt (tbl : List Row) (i : Nat) (f : Row → Row) : List Row :=
  match tbl[i]? with
  | some r => tbl.set i (f r)
  | none => tbl

/-- `UPDATE messages SET send_success = 1` on the most recent `msg` row
with the given `msg_id` (the binary-ACK early exit of `store_message`). -/
def updateSendSuccess (tbl : List Row) (aid : Nat) : List Row :=
  match selectLatest (fun r => r.msg_id = some aid && r.typ = "msg") tbl with
  | some (i, _) => modifyAt tbl i (fun r => { r with send_success := true })
  | none => tbl

/-- `UPDATE messages SET acked = 1` on the most recent `msg` row with the
given `echo_id` (the inline `:ackNNN` matching of `store_message`). -/
def updateAcked (tbl : List Row) (num : String) : List Row :=
  match selectLatest (fun r => r.echo_id = some num && r.typ = "msg") tbl with
  | some (i, _) => modifyAt tbl i (fun r => { r with acked := true })
  | none => tbl

/-- The MHeard throttle `SELECT` predicate: same `src`, `src_type = 'ble'`,
`type = 'pos'`, `msg_id IS NULL`, timestamp inside the 2-minute window. -/
def mheardPred (src : String) (ts : Int) (r : Row) : Bool :=
  r.src = src && r.src_type = "ble" && r.typ = "pos" && r.msg_id = none
    && decide (r.timestamp > ts - MHEARD_THROTTLE_MS)

/-- The inline `:ackNNN` matching step of `store_message`
(`if msg and ':ack' in msg: … UPDATE … SET acked = 1 …`). -/
def ackStep (msg : String) (tbl : List Row) : List Row :=
  if msg ≠ "" && pyContains msg ":ack" then
    match findAckNum msg.data with
    | some n => updateAcked tbl n
    | none => tbl
  else tbl

/-- The time-windowed dedup `SELECT` predicate: same `msg_id` within the
preceding 20 minutes. -/
def dedupPred (mid : Nat) (ts : Int) (r : Row) : Bool :=
  r.msg_id = some mid && decide (r.timestamp > ts - DEDUP_WINDOW_MS)

/-- The `INSERT INTO messages` row built by `store_message`: `callsign` and
`relay_via` come from splitting `src` at commas, `echo_id` from the `{NNN`
suffix of `msg`-typed texts, and the conversation key from
`compute_conversation_key`. -/
def newRowOf (m : Msg) (raw : String) (now : Int) : Row :=
  let ts := m.timestamp.getD now
  let srcParts := pySplitOn m.src ","
  let callsign := pyStrip (match srcParts with | [] => m.src | h :: _ => h)
  let relay_via :=
    if srcParts.length > 1 then joinSep "," (srcParts.tail.map pyStrip) else ""
  let msg_via := if m.via ≠ "" then m.via else relay_via
  let echo_id := if m.typ = "msg" && m.msg ≠ "" then extractEchoId m.msg else none
  let conversation_key :=
    if m.typ = "msg" then compute_conversation_key callsign m.dst else none
  { msg_id := m.msg_id, src := m.src, dst := m.dst, msg := m.msg, typ := m.typ,
    timestamp := ts, rssi := m.rssi, snr := m.snr, src_type := m.src_type,
    raw := raw, via := msg_via, hw_id := m.hw_id, lora_mod := m.lora_mod,
    max_hop := m.max_hop, mesh_info := m.mesh_info, firmware := m.firmware,
    fw_sub := m.fw_sub, last_hw_id := m.last_hw_id,
    last_sending := m.last_sending, transformer := m.transformer,
    echo_id := echo_id, conversation_key := conversation_key,
    acked := false, send_success := false }

/-- The MHeard throttle `UPDATE`: refresh rssi, snr, timestamp and raw JSON
of the matched row. -/
def mheardUpdateF (m : Msg) (raw : String) (ts : Int) (r : Row) : Row :=
  { r with rssi := m.rssi, snr := m.snr, timestamp := ts, raw := raw }

/-- `SQLiteStorage.store_message` (sqlite_storage.py), restricted to its
effect on the `messages` table (the telemetry path, `signal_log`,
signal-bucket accumulation and `station_positions` writes touch other
tables and are modelled separately / elided).  `now` is `time.time()*1000`
for the timestamp default. -/
def store_message (m : Msg) (raw : String) (now : Int) (tbl : List Row) : List Row :=
  if should_filter_message m then tbl
  else
    let ts := m.timestamp.getD now
    if m.typ = "tele" then tbl
    else if m.typ = "ack" then
      match m.ack_id with
      | some aid => updateSendSuccess tbl aid
      | none => tbl
    else
      let tbl1 := ackStep m.msg tbl
      let is_mheard := msgIdFalsy m.msg_id && m.src_type = "ble" && m.typ = "pos"
      let dedupHit :=
        match m.msg_id with
        | some mid => tbl1.any (dedupPred mid ts)
        | none => false
      let inserted := if dedupHit then tbl1 else tbl1 ++ [newRowOf m raw now]
      if is_mheard then
        match selectLatest (mheardPred m.src ts) tbl1 with
        | some (i, _) => modifyAt tbl1 i (mheardUpdateF m raw ts)
        | none => inserted
      else inserted

/-- One row of the `telemetry` table. -/
structure TelRow where
  callsign : String
  timestamp : Int
  temp1 : Option Rat
  temp2 : Option Rat
  hum : Option Rat
  qfe : Option Rat
  qnh : Option Rat
  gas : Option Rat
  co2 : Option Rat
  alt : Option Rat
deriving DecidableEq

/-- The fields `store_telemetry` reads from its `data` dict. -/
structure TelemetryData where
  timestamp : Option Int
  temp1 : Option Rat
  temp2 : Option Rat
  hum : Option Rat
  qfe : Option Rat
  gas : Option Rat
  co2 : Option Rat
  alt : Option Rat
deriving DecidableEq

/-- Python truthiness `v is None or v == 0` for an optional sensor value. -/
def sensorZero : Option Rat → Bool
  | none => true
  | some v => v = 0

/-- The telemetry dedup window `SELECT` / `DELETE` predicate: same callsign
within the previous 60 seconds. -/
def telRecentPred (callsign : String) (ts : Int) (r : TelRow) : Bool :=
  r.callsign = callsign && decide (r.timestamp > ts - 60000)

/-- `all(v is None or v == 0 for v in sensor_values)`: the all-zero filter
over (temp1, temp2, hum, qfe, gas, co2). -/
def allSensorsZero (d : TelemetryData) : Bool :=
  sensorZero d.temp1 && sensorZero d.temp2 && sensorZero d.hum
    && sensorZero d.qfe && sensorZero d.gas && sensorZero d.co2

/-- The `INSERT INTO telemetry` row: `qnh` is always NULL (node QNH is
unreliable), `alt` falls back to the `station_positions` lookup. -/
def newTelRowOf (callsign : String) (d : TelemetryData) (now : Int)
    (posAlt : Option Rat) : TelRow :=
  { callsign := callsign, timestamp := d.timestamp.getD now, temp1 := d.temp1,
    temp2 := d.temp2, hum := d.hum, qfe := d.qfe, qnh := none, gas := d.gas,
    co2 := d.co2, alt := match d.alt with | some a => some a | none => posAlt }

/-- `SQLiteStorage.store_telemetry` (sqlite_storage.py), restricted to its
effect on the `telemetry` table.  `posAlt` stands for the altitude obtained
from the `station_positions` lookup when the incoming record carries none
(flattened: `none` when there is no row or the row's `alt` is NULL); the
closing `station_positions` telemetry-mirror `UPDATE` touches another
table and is elided. -/
def store_telemetry (callsign : String) (d : TelemetryData) (now : Int)
    (tbl : List TelRow) (posAlt : Option Rat) : List TelRow :=
  if callsign = "" then tbl
  else
    let ts := d.timestamp.getD now
    if allSensorsZero d then tbl
    else
      match tbl.filter (telRecentPred callsign ts) with
      | [] => tbl ++ [newTelRowOf callsign d now posAlt]
      | r0 :: _ =>
          let existing_qfe := r0.qfe.getD 0
          if existing_qfe ≠ 0 && sensorZero d.qfe then tbl
          else if existing_qfe = 0 && ¬ sensorZero d.qfe then
            (tbl.filter (fun r => ¬ telRecentPred callsign ts r))
              ++ [newTelRowOf callsign d now posAlt]
          else tbl ++ [newTelRowOf callsign d now posAlt]

/-- Concrete telemetry scenario: a stored reading with real temperature
data but zero pressure, then 30 s later a reading with pressure only. -/
def c9First : TelemetryData :=
  { timestamp := some 0, temp1 := some 5, temp2 := none, hum := none,
    qfe := some 0, gas := none, co2 := none, alt := none }

def c9Second : TelemetryData :=
  { timestamp := some 30000, temp1 := none, temp2 := none, hum := none,
    qfe := some 1000, gas := none, co2 := none, alt := none }

/-- The telemetry table after the first reading. -/
def c9Tbl : List TelRow := store_telemetry "OE5HWN-12" c9First 0 [] none

/-- The table after the second reading 30 s later. -/
def c9Res : List TelRow := store_telemetry "OE5HWN-12" c9Second 0 c9Tbl none


/-- Convenience constructor: a message record with the optional columns
empty (used to state concrete scenarios). -/
def mkMsg (msg_id : Option Nat) (src dst msg typ : String) (ts : Int) : Msg :=
  { msg_id := msg_id, src := src, dst := dst, msg := msg, typ := typ,
    timestamp := some ts, rssi := none, snr := none, src_type := "lora", via := "",
    hw_id := none, lora_mod := none, max_hop := none, mesh_info := none,
    firmware := none, fw_sub := none, last_hw_id := none, last_sending := none,
    transformer := none, ack_id := none }

/-- Concrete scenario for the msg-id dedup claim: an original message with
echo suffix `{123`, its text ACK, a later message reusing echo `123`, and a
duplicate delivery of the ACK 20 s later (inside the 20-minute window). -/
def c3mAlice : Msg := mkMsg (some 1) "DK5EN-1" "OE5HWN-12" "HELLO \x7b123" "msg" 0

def c3mAck : Msg := mkMsg (some 77) "OE5HWN-12" "DK5EN-1" "HI :ack123" "msg" 10000

def c3mBob : Msg := mkMsg (some 2) "DK5EN-1" "OE5HWN-12" "WORLD \x7b123" "msg" 20000

def c3mAckDup : Msg := mkMsg (some 77) "OE5HWN-12" "DK5EN-1" "HI :ack123" "msg" 30000

/-- The messages table after storing the first three messages of the
scenario, in order, starting from an empty store. -/
def c3Tbl : List Row :=
  store_message c3mBob "r3" 0 (store_message c3mAck "r2" 0 (store_message c3mAlice "r1" 0 []))

/-- The table after the duplicate ACK delivery. -/
def c3Res : List Row := store_message c3mAckDup "r4" 0 c3Tbl

/-- Concrete MHeard scenario: beacons from the same station (type `pos`,
src type `ble`, no msg id), 60 s apart — inside the 2-minute throttle. -/
def c4Beacon (ts : Int) (rssi : Option Int) (snr : Option Rat) : Msg :=
  { mkMsg none "OE5HWN-12" "*" "" "pos" ts with
      src_type := "ble", rssi := rssi, snr := snr }

/-- The messages table after the first beacon (one inserted row). -/
def c4Tbl : List Row := store_message (c4Beacon 0 (some (-80)) (some 5)) "raw0" 0 []

/-- The table after the second beacon 60 s later. -/
def c4Res : List Row :=
  store_message (c4Beacon 60000 (some (-70)) (some 6)) "raw1" 0 c4Tbl

/-- Row identity fields for "no new row was inserted": msg id, addressing
and type (everything except the mutable signal/flag columns). -/
def coreOf (r : Row) : Option Nat × String × String × String × String :=
  (r.msg_id, r.src, r.dst, r.msg, r.typ)

/-- The fields the msg-id dedup invariant depends on. -/
def midTs (r : Row) : Option Nat × Int := (r.msg_id, r.timestamp)

/-- The fields the MHeard throttle invariant depends on. -/
def mhProj (r : Row) : String × String × String × Option Nat × Int :=
  (r.src, r.src_type, r.typ, r.msg_id, r.timestamp)

/-- At most one `messages` row per msg id per 20-minute window: any two
distinct rows with the same (non-null) `msg_id` have timestamps at least
`DEDUP_WINDOW_MS` apart. -/
def DedupInv (tbl : List Row) : Prop :=
  ∀ (i j : Nat) (ri rj : Row) (mid : Nat), i ≠ j →
    tbl[i]? = some ri → tbl[j]? = some rj →
    ri.msg_id = some mid → rj.msg_id = some mid →
    DEDUP_WINDOW_MS ≤ ri.timestamp - rj.timestamp ∨
      DEDUP_WINDOW_MS ≤ rj.timestamp - ri.timestamp

end Storage

namespace Router

/-!
`MessageRouter` (src/mcapp/main.py): `subscribe` appends the handler to the
per-topic list of the `defaultdict(list)`; `publish` wraps the data in a
routed-message dict and calls every subscriber of the topic in list order
inside `try/except` (an exception is logged and the loop continues).

A handler is embedded as a function to `Except ε β`: `.error` stands for a
Python exception escaping the handler, `.ok` for a normal return.  `publish`
returns the list of per-handler outcomes: one entry per subscribed handler,
in registration order — the pure image of the source's serial dispatch loop.
-/

structure RoutedMessage (α : Type) where
  source : String
  type : String
  data : α
  timestamp : Int
deriving DecidableEq

structure MessageRouter (α ε β : Type) where
  subscribers : List (String × List (RoutedMessage α → Except ε β))

/-- The handler list `self._subscribers[message_type]` (empty when the
topic was never subscribed, as with `defaultdict(list)`). -/
def subscribersFor (r : MessageRouter α ε β) (message_type : String) :
    List (RoutedMessage α → Except ε β) :=
  match r.subscribers.find? (fun p => p.1 = message_type) with
  | some p => p.2
  | none => []

/-- `MessageRouter.subscribe` (main.py): append to the topic's handler list. -/
def subscribe (r : MessageRouter α ε β) (message_type : String)
    (handler : RoutedMessage α → Except ε β) : MessageRouter α ε β :=
  if r.subscribers.any (fun p => p.1 = message_type) then
    ⟨r.subscribers.map (fun p =>
      if p.1 = message_type then (p.1, p.2 ++ [handler]) else p)⟩
  else ⟨r.subscribers ++ [(message_type, [handler])]⟩

/-- `MessageRouter.publish` (main.py): build the routed message and run
every subscriber of the topic in order, catching exceptions. -/
def publish (r : MessageRouter α ε β) (source message_type : String) (data : α)
    (now : Int) : List (Except ε β) :=
  let routed_message : RoutedMessage α :=
    { source := source, type := message_type, data := data, timestamp := now }
  (subscribersFor r message_type).map (fun handler => handler routed_message)

end Router

namespace McProxy

/-!
The command handler of the `mcproxy` package: `DedupMixin`
(src/mcproxy/commands/dedup.py) and the blocked-user / abuse path of
`RoutingMixin._message_handler` (src/mcapp/commands/routing.py, mixed into
the same `CommandHandler` class).  `time.time()` values are embedded as
`Rat`.
-/

/-- `DEFAULT_THROTTLE_TIMEOUT = 5 * 60` seconds (constants.py). -/
def DEFAULT_THROTTLE_TIMEOUT : Rat := 5 * 60

/-- `self.max_failed_attempts = 3` (`_init_dedup`). -/
def max_failed_attempts : Nat := 3

/-- `self.failed_attempt_window = DEFAULT_THROTTLE_TIMEOUT` (5 minutes). -/
def failed_attempt_window : Rat := DEFAULT_THROTTLE_TIMEOUT

/-- `self.block_duration = 5 * DEFAULT_THROTTLE_TIMEOUT` (25 minutes). -/
def block_duration : Rat := 5 * DEFAULT_THROTTLE_TIMEOUT

/-- The abuse-protection state of `_init_dedup`: `failed_attempts`,
`blocked_users` and `block_notifications_sent`, embedded as total maps
(a Python dict with an absent key behaves as the empty list / absence /
non-membership respectively). -/
structure DedupState where
  failed_attempts : String → List Rat
  blocked_users : String → Option Rat
  block_notifications_sent : String → Bool

/-- The state right after `_init_dedup`. -/
def initDedupState : DedupState :=
  { failed_attempts := fun _ => [],
    blocked_users := fun _ => none,
    block_notifications_sent := fun _ => false }

/-- `DedupMixin._track_failed_attempt` (dedup.py): append the current time,
drop attempts outside the 5-minute window, and block the source once the
kept attempts reach `max_failed_attempts`. -/
def track_failed_attempt (src : String) (now : Rat) (st : DedupState) : DedupState :=
  let kept := ((st.failed_attempts src) ++ [now]).filter
    (fun t => decide (t > now - failed_attempt_window))
  let st1 : DedupState :=
    { st with failed_attempts := fun s => if s = src then kept else st.failed_attempts s }
  if max_failed_attempts ≤ kept.length then
    { st1 with blocked_users := fun s => if s = src then some now else st1.blocked_users s }
  else st1

/-- `DedupMixin._cleanup_blocked_users` (dedup.py): expire blocks older
than 25 minutes, discarding the expired sources' courtesy-notification
marks. -/
def cleanup_blocked_users (now : Rat) (st : DedupState) : DedupState :=
  let expired := fun s => match st.blocked_users s with
    | some t => decide (t < now - block_duration)
    | none => false
  { st with
    blocked_users := fun s => if expired s = true then none else st.blocked_users s,
    block_notifications_sent := fun s => st.block_notifications_sent s && ! expired s }

/-- `DedupMixin._is_user_blocked` (dedup.py): cleanup expired blocks, then
membership. -/
def is_user_blocked (src : String) (now : Rat) (st : DedupState) :
    Bool × DedupState :=
  let st' := cleanup_blocked_users now st
  ((st'.blocked_users src).isSome, st')

/-- What the parse/throttle/execute part of `_message_handler` did for a
command that passed the reception checks: `execute_command` returned a
response, raised, the content-hash throttle hit, or the command was
unknown.  (Those subsystems' internals are orthogonal to the abuse claim
and are abstracted into this outcome.) -/
inductive ExecOutcome
  | ok (response : String)
  | raises
  | throttled
  | unknownCommand

/-- The courtesy reply text (routing.py). -/
def timeoutReply : String := "🚫 Temporarily in timeout due to repeated invalid commands"

/-- The blocked-check / throttle / execute / failure-tracking tail of
`RoutingMixin._message_handler` (routing.py): returns the new dedup state,
whether `execute_command` was invoked, and the reply sent (if any).
A blocked source gets no execution and at most one courtesy reply,
first-message-after-block only; an exception from `execute_command` is
tracked via `_track_failed_attempt`. -/
def handleCommandAbuse (src : String) (now : Rat) (outcome : ExecOutcome)
    (st : DedupState) : DedupState × Bool × Option String :=
  let res := is_user_blocked src now st
  let blocked := res.1
  let st1 := res.2
  if blocked then
    if ¬ st1.block_notifications_sent src then
      ({ st1 with block_notifications_sent :=
          fun s => if s = src then true else st1.block_notifications_sent s },
        false, some timeoutReply)
    else (st1, false, none)
  else
    match outcome with
    | .throttled =>
        (st1, false, some "⏳ Command throttled. Same command allowed once per 5min")
    | .unknownCommand => (st1, false, none)
    | .ok resp => (st1, true, some resp)
    | .raises =>
        (track_failed_attempt src now st1, true,
          some "❌ Command failed")

/-- The dedup state after three consecutive raising commands from `src`
(at times `t1`, `t2`, `t3`), each handled by the `_message_handler` tail. -/
def raise3 (src : String) (t1 t2 t3 : Rat) (st : DedupState) : DedupState :=
  (handleCommandAbuse src t3 ExecOutcome.raises
    (handleCommandAbuse src t2 ExecOutcome.raises
      (handleCommandAbuse src t1 ExecOutcome.raises st).1).1).1

/-!
`ResponseMixin` (src/mcproxy/commands/response.py): chunking of command
responses and the send loop, with `MAX_RESPONSE_LENGTH = 140` and
`MAX_CHUNKS = 3` (constants.py).  The send loop is modelled by its emitted
event list: one `send` event per chunk actually sent, one 12-second `delay`
event per `asyncio.sleep(12)`.
-/

/-- `MAX_RESPONSE_LENGTH = 140` (constants.py). -/
def MAX_RESPONSE_LENGTH : Nat := 140

/-- `MAX_CHUNKS = 3` (constants.py). -/
def MAX_CHUNKS : Nat := 3

/-- The station-boundary accumulation loop of `_chunk_response`: pack
parts split on the separator into chunks of at most 140 UTF-8 bytes —
but a single part that itself exceeds the limit becomes a chunk of its
own without any size check. -/
def pipeJoinGo : List String → String → List String → List String
  | [], current, acc => (if current = "" then acc else current :: acc).reverse
  | p :: rest, current, acc =>
      let test := if current = "" then p else current ++ " | " ++ p
      if utf8ByteLen test ≤ MAX_RESPONSE_LENGTH then pipeJoinGo rest test acc
      else if current = "" then pipeJoinGo rest p acc
      else pipeJoinGo rest p (current :: acc)

/-- The character-wise fallback of `_chunk_response`: slices of
`MAX_RESPONSE_LENGTH` characters (not bytes).  The first argument is fuel
bounding the number of slices, so recursion is structural. -/
def charChunksGo : Nat → List Char → List (List Char)
  | 0, _ => []
  | _, [] => []
  | fuel + 1, c :: rest =>
      (c :: rest).take MAX_RESPONSE_LENGTH
        :: charChunksGo fuel ((c :: rest).drop MAX_RESPONSE_LENGTH)

/-- `ResponseMixin._chunk_response`: a response of at most 140 UTF-8 bytes
is a single chunk; otherwise split on a two-part `", "` padding separator,
or greedily on `" | "` station boundaries, or by 140-character slices; and
keep at most `MAX_CHUNKS` chunks. -/
def chunk_response (response : String) : List String :=
  if utf8ByteLen response ≤ MAX_RESPONSE_LENGTH then [response]
  else
    (if Storage.pyContains response ", "
        && decide ((pySplitOn response ", ").length = 2) then
      pySplitOn response ", "
    else if Storage.pyContains response " | " then
      pipeJoinGo (pySplitOn response " | ") "" []
    else
      (charChunksGo response.data.length response.data).map
        (fun cs => String.mk cs)).take MAX_CHUNKS

/-- An observable action of the `send_response` loop. -/
inductive SendEvent
  | send (chunk : String)
  | delay (seconds : Nat)
deriving DecidableEq

/-- The chunk header prefixed to multi-chunk sends: an f-string of the
1-based index and of the smaller of the chunk count and `MAX_CHUNKS`. -/
def chunkHeader (i total : Nat) : String :=
  "(" ++ natToStr (i + 1) ++ "/" ++ natToStr (min total MAX_CHUNKS) ++ ") "

/-- Whether an event is a chunk transmission. -/
def SendEvent.isSend : SendEvent → Bool
  | .send _ => true
  | .delay _ => false

/-- The payloads of the send events, in order. -/
def sendsOf : List SendEvent → List String
  | [] => []
  | SendEvent.send c :: rest => c :: sendsOf rest
  | SendEvent.delay _ :: rest => sendsOf rest

/-- Number of chunk transmissions among the events. -/
def countSends (es : List SendEvent) : Nat := (sendsOf es).length

/-- Number of delay events among the events. -/
def countDelays : List SendEvent → Nat
  | [] => 0
  | SendEvent.delay _ :: rest => countDelays rest + 1
  | SendEvent.send _ :: rest => countDelays rest

/-- The chunks with their headers attached, the first having index `i`. -/
def prefixChunks (total : Nat) : Nat → List String → List String
  | _, [] => []
  | i, c :: rest => (chunkHeader i total ++ c) :: prefixChunks total (i + 1) rest

/-- The send loop of `send_response`: iterate over the first `MAX_CHUNKS`
chunks, prefixing the header when the chunk list has more than one element
and sleeping 12 seconds after every chunk but the last. -/
def sendEventsGo (total : Nat) : Nat → List String → List SendEvent
  | _, [] => []
  | i, c :: rest =>
      SendEvent.send (if 1 < total then chunkHeader i total ++ c else c)
        :: ((if i < total - 1 then [SendEvent.delay 12] else [])
            ++ sendEventsGo total (i + 1) rest)

/-- `ResponseMixin.send_response`, abstracted to its emitted events (an
empty response returns immediately). -/
def send_response (response : String) : List SendEvent :=
  if response = "" then []
  else
    sendEventsGo (chunk_response response).length 0
      ((chunk_response response).take MAX_CHUNKS)

end McProxy


namespace Ctcping

/-!
`CTCPingMixin.handle_ctcping` (src/mcapp/commands/ctcping.py): validation
of the `call` / `payload` / `repeat` arguments, including the
`blocked_callsigns` check, before the ping-test task is started.
-/

/-- A Python value as it arrives in `kwargs`: a string or an int. -/
inductive PyVal
  | vstr (s : String)
  | vint (n : Int)
deriving DecidableEq

/-- Decimal value of a nonempty all-digit character list (`int` builtin on
digit strings). -/
def digitsVal (cs : List Char) : Option Nat :=
  if cs.isEmpty then none
  else if cs.all isDigitCh then
    some (cs.foldl (fun a c => a * 10 + (c.toNat - 48)) 0)
  else none

/-- Python `int(s)` for a string: optional sign, then decimal digits;
anything else raises (`none`). -/
def strToInt (s : String) : Option Int :=
  match s.data with
  | '-' :: rest => (digitsVal rest).map (fun n => -(n : Int))
  | '+' :: rest => (digitsVal rest).map (fun n => (n : Int))
  | cs => (digitsVal cs).map (fun n => (n : Int))

/-- Python `int(x)` on a kwargs value: ints pass through, strings are
parsed, failure models `ValueError`/`TypeError`. -/
def pyInt : PyVal → Option Int
  | .vint n => some n
  | .vstr s => strToInt s

/-- Up to `max` leading uppercase letters: their count and the rest. -/
def spanUpper : List Char → Nat → Nat × List Char
  | cs, 0 => (0, cs)
  | [], _ + 1 => (0, [])
  | c :: rest, max + 1 =>
      if isUpperAlpha c then
        let p := spanUpper rest max
        (p.1 + 1, p.2)
      else (0, c :: rest)

/-- The `(-\d{1,2})?$` tail of the ping-target pattern. -/
def ssidTail : List Char → Bool
  | [] => true
  | '-' :: rest =>
      match rest with
      | [d] => isDigitCh d
      | [d1, d2] => isDigitCh d1 && isDigitCh d2
      | _ => false
  | _ => false

/-- `re.match` against `^[A-Z]{1,2}[0-9][A-Z]{1,3}(-\d{1,2})?$`:
one or two letters, one digit, one to three letters, an optional SSID of
one or two digits.  The character classes at each backtracking point are
disjoint, so greedy matching is exact. -/
def ctcpingCallPattern (s : String) : Bool :=
  let p1 := spanUpper s.data 2
  match p1.2 with
  | [] => false
  | d :: r2 =>
      decide (1 ≤ p1.1) && isDigitCh d &&
        (let p2 := spanUpper r2 3
         decide (1 ≤ p2.1) && ssidTail p2.2)

/-- Decimal string of an `Int` (f-string rendering). -/
def intToStr (n : Int) : String :=
  if n < 0 then "-" ++ natToStr n.natAbs else natToStr n.natAbs

/-- The outcome of `handle_ctcping`: an error reply, or a started test
(one `_start_ping_test` task) plus the success reply. -/
inductive CtcpingResult
  | err (msg : String)
  | started (target : String) (payload_size : Int) (repeat_count : Int) (reply : String)
deriving DecidableEq

/-- The success reply f-string of `handle_ctcping`. -/
def pingStartReply (target : String) (p k : Int) : String :=
  "🏓 Ping test to " ++ target ++ " started: " ++ intToStr k
    ++ " ping(s) with " ++ intToStr p ++ " bytes payload..."

/-- `CTCPingMixin.handle_ctcping`: uppercase the target, then validate in
order — nonempty, callsign pattern, not my own callsign, not blocked,
payload an int in 25..140, repeat an int in 1..5 — returning the first
failing check's error reply, else starting exactly one test. -/
def handle_ctcping (myCall : String) (blocked : List String)
    (call : String) (payload rep : PyVal) : CtcpingResult :=
  if pyUpper call = "" then
    .err "❌ Target callsign required (call:TARGET)"
  else if ctcpingCallPattern (pyUpper call) = false then
    .err "❌ Invalid target callsign format"
  else if pyUpper call = myCall then
    .err "❌ Cannot ping yourself"
  else if blocked.contains (pyUpper call) then
    .err ("❌ Target " ++ pyUpper call ++ " is blocked")
  else
    match pyInt payload with
    | none => .err "❌ Invalid payload size"
    | some p =>
        if p < 25 ∨ 140 < p then
          .err "❌ Payload size must be between 25 and 140 bytes"
        else
          match pyInt rep with
          | none => .err "❌ Invalid repeat count"
          | some k =>
              if k < 1 ∨ 5 < k then
                .err "❌ Repeat count must be between 1 and 5"
              else .started (pyUpper call) p k (pingStartReply (pyUpper call) p k)

/-!
Completion accounting of one ping test (`_handle_ack_message`,
`_ping_timeout_task` / `_record_ping_result` / `_check_test_completion`,
`_monitor_test_completion`, `_complete_test_with_cleanup` /
`_complete_test` / `_send_test_summary`).  asyncio runs one task at a
time and suspends only at `await`; each transition below is one such
atomic block.  The `ack_processed` flag never survives a handler run in
observable states — every path that sets it also deletes the
`active_pings` entry — so entries carry no flag here.  The transient
`completing` status is likewise internal to one `_complete_test` block.
-/

/-- `ping_tests[test_id]["status"]` as observable between steps. -/
inductive TestStatus
  | running
  | completed
  | timeout
deriving DecidableEq

/-- An `active_pings` entry: the three-digit ack id and the sequence
(`sequence_info`) of the ping it acknowledges. -/
structure PingRec where
  ackId : Nat
  seq : Nat
deriving DecidableEq

/-- The completion-relevant fields of `ping_tests[test_id]`. -/
structure TestRec where
  total_pings : Nat
  completed : Nat
  timeouts : Nat
  status : TestStatus
  completedSeqs : List Nat
deriving DecidableEq

/-- The state of one ping test: the test record (`none` once
`_send_test_summary` deleted it), the active pings, whether the per-test
completion event exists in `_completion_events`, the number of scheduled
`_complete_test_with_cleanup` tasks not yet run, whether the 5-minute
monitor is still running, and the number of summary messages emitted so
far. -/
structure PingState where
  test : Option TestRec
  activePings : List PingRec
  completionEvent : Bool
  pendingComplete : Nat
  monitorAlive : Bool
  emitted : Nat
deriving DecidableEq

/-- The concurrent events that touch a test: an ACK arrival (possibly a
duplicate), a 30-second single-ping timeout, one poll iteration of the
monitor, the monitor reaching its 300-second limit, and one run of a
scheduled completion task. -/
inductive PingAction
  | ack (ackId : Nat)
  | timeoutPing (ackId : Nat)
  | monitorPoll
  | monitorTimeout
  | completeTask
deriving DecidableEq

/-- `active_pings[ack_id]` lookup. -/
def findPing (l : List PingRec) (a : Nat) : Option PingRec :=
  l.find? (fun p => decide (p.ackId = a))

/-- `del active_pings[ack_id]`. -/
def removePing (l : List PingRec) (a : Nat) : List PingRec :=
  l.filter (fun p => ! decide (p.ackId = a))

/-- `_handle_ack_message` for a verified ACK: unknown or already-removed
ack ids are ignored; with the test running, a sequence already in
`completed_sequences` is dropped, otherwise the sequence is recorded,
`completed` incremented, and — when the counts reach `total_pings` and no
completion event exists yet — the event is created and one completion
task scheduled.  The entry is deleted in every processed path. -/
def ackStepPing (s : PingState) (a : Nat) : PingState :=
  match findPing s.activePings a with
  | none => s
  | some p =>
    match s.test with
    | some t =>
      if t.status = TestStatus.running then
        if p.seq ∈ t.completedSeqs then
          { s with activePings := removePing s.activePings a }
        else
          { s with
              test := some { t with
                completedSeqs := p.seq :: t.completedSeqs,
                completed := t.completed + 1 },
              activePings := removePing s.activePings a,
              completionEvent := s.completionEvent
                || decide (t.total_pings ≤ t.completed + 1 + t.timeouts),
              pendingComplete := s.pendingComplete
                + (if decide (t.total_pings ≤ t.completed + 1 + t.timeouts)
                      && ! s.completionEvent then 1 else 0) }
      else { s with activePings := removePing s.activePings a }
    | none => { s with activePings := removePing s.activePings a }

/-- `_record_ping_result`: `timeouts` is incremented only below
`total_pings`. -/
def recordTimeout (t : TestRec) : TestRec :=
  if t.timeouts < t.total_pings then { t with timeouts := t.timeouts + 1 } else t

/-- The over-completion correction of `_check_test_completion`: excess
counts are subtracted, preferentially from `completed`. -/
def capTest (t : TestRec) : TestRec :=
  if t.total_pings < t.completed + t.timeouts then
    (if t.completed + t.timeouts - t.total_pings ≤ t.completed then
      { t with completed := t.completed - (t.completed + t.timeouts - t.total_pings) }
    else
      { t with timeouts := t.timeouts - (t.completed + t.timeouts - t.total_pings) })
  else t

/-- `_ping_timeout_task` for a still-active ping: record the timeout via
`_record_ping_result` (which runs `_check_test_completion` and the same
completion-event guard as the ACK path) and delete the entry. -/
def timeoutStepPing (s : PingState) (a : Nat) : PingState :=
  match findPing s.activePings a with
  | none => s
  | some _ =>
    match s.test with
    | some t =>
      if t.status = TestStatus.running then
        { s with
            test := some (capTest (recordTimeout t)),
            activePings := removePing s.activePings a,
            completionEvent := s.completionEvent
              || decide ((capTest (recordTimeout t)).total_pings
                  ≤ (capTest (recordTimeout t)).completed
                    + (capTest (recordTimeout t)).timeouts),
            pendingComplete := s.pendingComplete
              + (if decide ((capTest (recordTimeout t)).total_pings
                      ≤ (capTest (recordTimeout t)).completed
                        + (capTest (recordTimeout t)).timeouts)
                    && ! s.completionEvent then 1 else 0) }
      else { s with activePings := removePing s.activePings a }
    | none => { s with activePings := removePing s.activePings a }

/-- One iteration of `_monitor_test_completion`: a deleted test ends the
monitor silently; reached counts set the status, emit the summary and
delete the test; otherwise the monitor sleeps on. -/
def monitorPollStep (s : PingState) : PingState :=
  if s.monitorAlive then
    match s.test with
    | none => { s with monitorAlive := false }
    | some t =>
      if t.total_pings ≤ t.completed + t.timeouts then
        { s with test := none, monitorAlive := false, emitted := s.emitted + 1 }
      else s
  else s

/-- The monitor reaching its 300-second limit: if the test still exists
its status becomes `timeout` and the timeout summary is emitted. -/
def monitorTimeoutStep (s : PingState) : PingState :=
  if s.monitorAlive then
    match s.test with
    | none => { s with monitorAlive := false }
    | some _ =>
      { s with test := none, monitorAlive := false, emitted := s.emitted + 1 }
  else s

/-- One run of a scheduled `_complete_test_with_cleanup` task: only a
test still in `running` status is completed (cancelling the monitor,
emitting the summary and deleting the test); the `finally` clause always
removes the completion event. -/
def completeTaskStep (s : PingState) : PingState :=
  if s.pendingComplete = 0 then s
  else
    match s.test with
    | some t =>
      if t.status = TestStatus.running then
        { s with test := none, monitorAlive := false, emitted := s.emitted + 1,
                 completionEvent := false,
                 pendingComplete := s.pendingComplete - 1 }
      else { s with completionEvent := false,
                    pendingComplete := s.pendingComplete - 1 }
    | none => { s with completionEvent := false,
                       pendingComplete := s.pendingComplete - 1 }

/-- One interleaving step. -/
def stepPing (s : PingState) : PingAction → PingState
  | .ack a => ackStepPing s a
  | .timeoutPing a => timeoutStepPing s a
  | .monitorPoll => monitorPollStep s
  | .monitorTimeout => monitorTimeoutStep s
  | .completeTask => completeTaskStep s

/-- Run a whole action trace. -/
def runPing (s : PingState) : List PingAction → PingState
  | [] => s
  | a :: rest => runPing (stepPing s a) rest

/-- The state right after `_start_ping_test` finished sending a test of
`K` repeats and started the monitor. -/
def initPing (K : Nat) (pings : List PingRec) : PingState :=
  { test := some { total_pings := K, completed := 0, timeouts := 0,
                   status := TestStatus.running, completedSeqs := [] },
    activePings := pings,
    completionEvent := false,
    pendingComplete := 0,
    monitorAlive := true,
    emitted := 0 }

/-- The completion invariant: at most one summary ever; the summary has
been emitted exactly when the test record is gone; a dead monitor means
the summary went out; and a live test is still `running`, with
`completed` bounded by the distinct completed sequences. -/
def PingInv (s : PingState) : Prop :=
  s.emitted ≤ 1
  ∧ (s.test = none ↔ s.emitted = 1)
  ∧ (s.monitorAlive = false → s.emitted = 1)
  ∧ (∀ t, s.test = some t →
      t.completed ≤ t.completedSeqs.length
        ∧ t.completedSeqs.Nodup ∧ t.status = TestStatus.running)

end Ctcping



namespace Storage

theorem modifyAt_length (tbl : List Row) (i : Nat) (f : Row → Row) :
    (modifyAt tbl i f).length = tbl.length := by
  unfold modifyAt
  cases h : tbl[i]? <;> simp

theorem modifyAt_getElem? (tbl : List Row) (i : Nat) (f : Row → Row) (k : Nat) :
    (modifyAt tbl i f)[k]? = if k = i then (tbl[k]?).map f else tbl[k]? := by
  unfold modifyAt
  cases h : tbl[i]? with
  | none =>
      by_cases hk : k = i
      · subst hk; simp [h]
      · simp [hk]
  | some r =>
      have hlt : i < tbl.length := by
        by_contra hge
        rw [List.getElem?_eq_none (Nat.le_of_not_lt hge)] at h
        exact Option.noConfusion h
      by_cases hk : k = i
      · subst hk; rw [List.getElem?_set]; simp [hlt, h]
      · rw [List.getElem?_set, if_neg (fun hik => hk hik.symm), if_neg hk]

theorem selectLatest_some (p : Row → Bool) :
    ∀ tbl i r, selectLatest p tbl = some (i, r) → tbl[i]? = some r ∧ p r = true := by
  intro tbl
  induction tbl with
  | nil => intro i r h; simp [selectLatest] at h
  | cons a rest ih =>
      intro i r h
      simp only [selectLatest] at h
      cases hrec : selectLatest p rest with
      | none =>
          rw [hrec] at h
          by_cases hp : p a
          · simp [hp] at h
            obtain ⟨hi, hr⟩ := h
            subst hi; subst hr
            exact ⟨by simp, hp⟩
          · simp [hp] at h
      | some jr =>
          obtain ⟨j, rj⟩ := jr
          simp only [hrec] at h
          split at h
          next hc =>
            obtain ⟨h1, h2⟩ := Prod.mk.inj (Option.some.inj h)
            subst h1; subst h2
            exact ⟨by simp, by have := hc; simp only [Bool.and_eq_true] at this; exact this.1⟩
          next hc =>
            obtain ⟨h1, h2⟩ := Prod.mk.inj (Option.some.inj h)
            subst h1; subst h2
            obtain ⟨hmem, hp⟩ := ih j rj hrec
            exact ⟨by simpa using hmem, hp⟩

theorem selectLatest_none (p : Row → Bool) :
    ∀ tbl, selectLatest p tbl = none →
      ∀ (k : Nat) (rk : Row), tbl[k]? = some rk → p rk = false := by
  intro tbl
  induction tbl with
  | nil => intro h k rk hk; simp at hk
  | cons a rest ih =>
      intro h k rk hk
      simp only [selectLatest] at h
      cases hrec : selectLatest p rest with
      | none =>
          simp only [hrec] at h
          by_cases hp : p a
          · simp [hp] at h
          · cases k with
            | zero => simp at hk; subst hk; exact Bool.eq_false_iff.mpr hp
            | succ k' => exact ih hrec k' rk (by simpa using hk)
      | some jr =>
          obtain ⟨j, rj⟩ := jr
          simp only [hrec] at h
          split at h <;> exact Option.noConfusion h

theorem selectLatest_max (p : Row → Bool) :
    ∀ tbl i r, selectLatest p tbl = some (i, r) →
      ∀ (k : Nat) (rk : Row), tbl[k]? = some rk → p rk = true →
        rk.timestamp ≤ r.timestamp := by
  intro tbl
  induction tbl with
  | nil => intro i r h; simp [selectLatest] at h
  | cons a rest ih =>
      intro i r h k rk hk hpk
      simp only [selectLatest] at h
      cases hrec : selectLatest p rest with
      | none =>
          simp only [hrec] at h
          by_cases hp : p a
          · simp only [hp, if_true] at h
            obtain ⟨h1, h2⟩ := Prod.mk.inj (Option.some.inj h)
            subst h2
            cases k with
            | zero => simp at hk; subst hk; exact le_refl _
            | succ k' =>
                have := selectLatest_none p rest hrec k' rk (by simpa using hk)
                rw [hpk] at this
                exact Bool.noConfusion this
          · simp [hp] at h
      | some jr =>
          obtain ⟨j, rj⟩ := jr
          simp only [hrec] at h
          split at h
          next hc =>
            obtain ⟨h1, h2⟩ := Prod.mk.inj (Option.some.inj h)
            subst h2
            have hc' := hc
            simp only [Bool.and_eq_true, decide_eq_true_eq] at hc'
            cases k with
            | zero => simp at hk; subst hk; exact le_refl _
            | succ k' =>
                have := ih j rj hrec k' rk (by simpa using hk) hpk
                exact le_trans this (le_of_lt hc'.2)
          next hc =>
            obtain ⟨h1, h2⟩ := Prod.mk.inj (Option.some.inj h)
            subst h2
            cases k with
            | zero =>
                simp at hk
                subst hk
                have hnlt : ¬ rj.timestamp < a.timestamp := by
                  intro hlt
                  exact hc (by simp [hpk, hlt])
                exact le_of_not_lt hnlt
            | succ k' => exact ih j rj hrec k' rk (by simpa using hk) hpk

theorem modifyAt_map_proj {β : Type} (proj : Row → β) (tbl : List Row) (i : Nat)
    (f : Row → Row) (hf : ∀ r, proj (f r) = proj r) (k : Nat) :
    ((modifyAt tbl i f)[k]?).map proj = (tbl[k]?).map proj := by
  rw [modifyAt_getElem?]
  by_cases hk : k = i
  · subst hk; cases tbl[k]? <;> simp [hf]
  · simp [hk]

theorem modifyAt_any (tbl : List Row) (i : Nat) (f : Row → Row) (p : Row → Bool)
    (hf : ∀ r, p (f r) = p r) :
    (modifyAt tbl i f).any p = tbl.any p := by
  have hiff : (modifyAt tbl i f).any p = true ↔ tbl.any p = true := by
    constructor
    · intro h
      rcases List.any_eq_true.mp h with ⟨x, hx, hpx⟩
      rcases List.mem_iff_getElem?.mp hx with ⟨k, hk⟩
      rw [modifyAt_getElem?] at hk
      by_cases hki : k = i
      · rw [if_pos hki] at hk
        cases ho : tbl[k]? with
        | none => rw [ho] at hk; exact Option.noConfusion hk
        | some y =>
            rw [ho] at hk
            have hxy : f y = x := by simpa using hk
            refine List.any_eq_true.mpr ⟨y, List.mem_iff_getElem?.mpr ⟨k, ho⟩, ?_⟩
            rw [← hf y, hxy]
            exact hpx
      · rw [if_neg hki] at hk
        exact List.any_eq_true.mpr ⟨x, List.mem_iff_getElem?.mpr ⟨k, hk⟩, hpx⟩
    · intro h
      rcases List.any_eq_true.mp h with ⟨x, hx, hpx⟩
      rcases List.mem_iff_getElem?.mp hx with ⟨k, hk⟩
      by_cases hki : k = i
      · refine List.any_eq_true.mpr ⟨f x, List.mem_iff_getElem?.mpr ⟨k, ?_⟩, ?_⟩
        · rw [modifyAt_getElem?, if_pos hki, hk]; rfl
        · rw [hf]; exact hpx
      · refine List.any_eq_true.mpr ⟨x, List.mem_iff_getElem?.mpr ⟨k, ?_⟩, hpx⟩
        rw [modifyAt_getElem?, if_neg hki]; exact hk
  rcases Bool.eq_false_or_eq_true ((modifyAt tbl i f).any p) with h1 | h1 <;>
    rcases Bool.eq_false_or_eq_true (tbl.any p) with h2 | h2
  · rw [h1, h2]
  · exact absurd (hiff.mp h1) (by simp [h2])
  · exact absurd (hiff.mpr h2) (by simp [h1])
  · rw [h1, h2]

theorem updateAcked_map_proj {β : Type} (proj : Row → β)
    (hf : ∀ r : Row, proj { r with acked := true } = proj r)
    (tbl : List Row) (n : String) (k : Nat) :
    ((updateAcked tbl n)[k]?).map proj = (tbl[k]?).map proj := by
  unfold updateAcked
  cases hsel : selectLatest (fun r => r.echo_id = some n && r.typ = "msg") tbl with
  | none => rfl
  | some ir =>
      obtain ⟨i, r⟩ := ir
      exact modifyAt_map_proj proj tbl i _ hf k

theorem updateAcked_any (p : Row → Bool)
    (hf : ∀ r : Row, p { r with acked := true } = p r)
    (tbl : List Row) (n : String) :
    (updateAcked tbl n).any p = tbl.any p := by
  unfold updateAcked
  cases hsel : selectLatest (fun r => r.echo_id = some n && r.typ = "msg") tbl with
  | none => rfl
  | some ir =>
      obtain ⟨i, r⟩ := ir
      exact modifyAt_any tbl i _ p hf

theorem ackStep_map_proj {β : Type} (proj : Row → β)
    (hf : ∀ r : Row, proj { r with acked := true } = proj r)
    (msg : String) (tbl : List Row) (k : Nat) :
    ((ackStep msg tbl)[k]?).map proj = (tbl[k]?).map proj := by
  unfold ackStep
  split
  · cases hfa : findAckNum msg.data with
    | none => rfl
    | some n => exact updateAcked_map_proj proj hf tbl n k
  · rfl

theorem ackStep_any (p : Row → Bool)
    (hf : ∀ r : Row, p { r with acked := true } = p r)
    (msg : String) (tbl : List Row) :
    (ackStep msg tbl).any p = tbl.any p := by
  unfold ackStep
  split
  · cases hfa : findAckNum msg.data with
    | none => rfl
    | some n => exact updateAcked_any p hf tbl n
  · rfl

theorem updateSendSuccess_map_proj {β : Type} (proj : Row → β)
    (hf : ∀ r : Row, proj { r with send_success := true } = proj r)
    (tbl : List Row) (aid : Nat) (k : Nat) :
    ((updateSendSuccess tbl aid)[k]?).map proj = (tbl[k]?).map proj := by
  unfold updateSendSuccess
  cases hsel : selectLatest (fun r => r.msg_id = some aid && r.typ = "msg") tbl with
  | none => rfl
  | some ir =>
      obtain ⟨i, r⟩ := ir
      exact modifyAt_map_proj proj tbl i _ hf k

theorem map_proj_length {β : Type} (proj : Row → β) (l l' : List Row)
    (h : ∀ k : Nat, (l'[k]?).map proj = (l[k]?).map proj) :
    l'.length = l.length := by
  by_contra hne
  rcases Nat.lt_or_ge l'.length l.length with hlt | hge
  · have h1 : l'[l'.length]? = none := List.getElem?_eq_none (le_refl _)
    have h2 : l[l'.length]? ≠ none := by
      rw [List.getElem?_eq_getElem hlt]
      exact fun hc => Option.noConfusion hc
    have := h l'.length
    rw [h1] at this
    cases ho : l[l'.length]? with
    | none => exact h2 ho
    | some y => rw [ho] at this; exact Option.noConfusion this
  · have hlt : l.length < l'.length := Nat.lt_of_le_of_ne hge (fun he => hne he.symm)
    have h1 : l[l.length]? = none := List.getElem?_eq_none (le_refl _)
    have h2 : l'[l.length]? ≠ none := by
      rw [List.getElem?_eq_getElem hlt]
      exact fun hc => Option.noConfusion hc
    have := h l.length
    rw [h1] at this
    cases ho : l'[l.length]? with
    | none => exact h2 ho
    | some y => rw [ho] at this; exact Option.noConfusion this

theorem DedupInv_transfer (l l' : List Row)
    (h : ∀ k : Nat, ((l'[k]?).map midTs = (l[k]?).map midTs)
        ∨ (∃ r', l'[k]? = some r' ∧ r'.msg_id = none)) :
    DedupInv l → DedupInv l' := by
  intro hinv i j ri rj mid hij hi hj hmi hmj
  have resolve : ∀ (k : Nat) (rk : Row), l'[k]? = some rk → rk.msg_id = some mid →
      ∃ sk, l[k]? = some sk ∧ sk.msg_id = some mid ∧ sk.timestamp = rk.timestamp := by
    intro k rk hk hmk
    rcases h k with hp | ⟨r', hr', hrn⟩
    · rw [hk] at hp
      cases ho : l[k]? with
      | none => rw [ho] at hp; exact Option.noConfusion hp
      | some sk =>
          rw [ho] at hp
          have : midTs rk = midTs sk := by simpa using hp
          have h1 : rk.msg_id = sk.msg_id := congrArg Prod.fst this
          have h2 : rk.timestamp = sk.timestamp := congrArg Prod.snd this
          exact ⟨sk, rfl, h1 ▸ hmk, h2.symm⟩
    · rw [hk] at hr'
      have : rk = r' := Option.some.inj hr'
      rw [this, hrn] at hmk
      exact Option.noConfusion hmk
  rcases resolve i ri hi hmi with ⟨si, hsi, hsmi, hsti⟩
  rcases resolve j rj hj hmj with ⟨sj, hsj, hsmj, hstj⟩
  have := hinv i j si sj mid hij hsi hsj hsmi hsmj
  rw [hsti, hstj] at this
  exact this

theorem DedupInv_append (tbl : List Row) (row : Row)
    (hinv : DedupInv tbl)
    (hsep : ∀ mid : Nat, row.msg_id = some mid →
      ∀ (k : Nat) (r : Row), tbl[k]? = some r → r.msg_id = some mid →
        r.timestamp ≤ row.timestamp - DEDUP_WINDOW_MS) :
    DedupInv (tbl ++ [row]) := by
  intro i j ri rj mid hij hi hj hmi hmj
  have hchar : ∀ (k : Nat) (rk : Row), (tbl ++ [row])[k]? = some rk →
      (k < tbl.length ∧ tbl[k]? = some rk) ∨ (k = tbl.length ∧ rk = row) := by
    intro k rk hk
    by_cases hlt : k < tbl.length
    · left
      refine ⟨hlt, ?_⟩
      rw [List.getElem?_append, if_pos hlt] at hk
      exact hk
    · right
      rw [List.getElem?_append, if_neg hlt] at hk
      rcases Nat.lt_or_ge (k - tbl.length) 1 with h1 | h1
      · have : k - tbl.length = 0 := Nat.lt_one_iff.mp h1
        rw [this] at hk
        simp at hk
        exact ⟨by omega, hk.symm⟩
      · rw [List.getElem?_eq_none (by simpa using h1)] at hk
        exact Option.noConfusion hk
  rcases hchar i ri hi with ⟨hilt, hi'⟩ | ⟨hieq, hri⟩
  · rcases hchar j rj hj with ⟨hjlt, hj'⟩ | ⟨hjeq, hrj⟩
    · exact hinv i j ri rj mid hij hi' hj' hmi hmj
    · subst hrj
      have := hsep mid hmj i ri hi' hmi
      right
      linarith
  · subst hri
    rcases hchar j rj hj with ⟨hjlt, hj'⟩ | ⟨hjeq, hrj⟩
    · have := hsep mid hmi j rj hj' hmj
      left
      linarith
    · exact absurd (hieq.trans hjeq.symm) hij

theorem store_message_filtered (m : Msg) (raw : String) (now : Int) (tbl : List Row)
    (h : should_filter_message m = true) :
    store_message m raw now tbl = tbl := by
  simp [store_message, h]

theorem store_message_tele (m : Msg) (raw : String) (now : Int) (tbl : List Row)
    (h1 : should_filter_message m = false) (h2 : m.typ = "tele") :
    store_message m raw now tbl = tbl := by
  simp [store_message, h1, h2]

theorem store_message_ack (m : Msg) (raw : String) (now : Int) (tbl : List Row)
    (h1 : should_filter_message m = false) (h2 : m.typ = "ack") :
    store_message m raw now tbl =
      (match m.ack_id with
       | some aid => updateSendSuccess tbl aid
       | none => tbl) := by
  simp [store_message, h1, h2]

theorem store_message_main (m : Msg) (raw : String) (now : Int) (tbl : List Row)
    (h1 : should_filter_message m = false) (h2 : m.typ ≠ "tele") (h3 : m.typ ≠ "ack") :
    store_message m raw now tbl =
      if msgIdFalsy m.msg_id && m.src_type = "ble" && m.typ = "pos" then
        match selectLatest (mheardPred m.src (m.timestamp.getD now)) (ackStep m.msg tbl) with
        | some (i, _) =>
            modifyAt (ackStep m.msg tbl) i (mheardUpdateF m raw (m.timestamp.getD now))
        | none =>
            if (match m.msg_id with
                | some mid => (ackStep m.msg tbl).any (dedupPred mid (m.timestamp.getD now))
                | none => false) then ackStep m.msg tbl
            else ackStep m.msg tbl ++ [newRowOf m raw now]
      else
        if (match m.msg_id with
            | some mid => (ackStep m.msg tbl).any (dedupPred mid (m.timestamp.getD now))
            | none => false) then ackStep m.msg tbl
        else ackStep m.msg tbl ++ [newRowOf m raw now] := by
  simp [store_message, h1, h2, h3]

theorem map_proj_resolve {β : Type} (proj : Row → β) (l l' : List Row)
    (h : ∀ k : Nat, (l'[k]?).map proj = (l[k]?).map proj) (k : Nat) (rk : Row)
    (hk : l'[k]? = some rk) : ∃ sk, l[k]? = some sk ∧ proj sk = proj rk := by
  have := h k
  rw [hk] at this
  cases ho : l[k]? with
  | none => rw [ho] at this; exact Option.noConfusion this
  | some sk =>
      rw [ho] at this
      exact ⟨sk, rfl, (Option.some.inj this).symm⟩

theorem append_single_getElem? (tbl : List Row) (row : Row) (k : Nat) (rk : Row)
    (hk : (tbl ++ [row])[k]? = some rk) :
    (k < tbl.length ∧ tbl[k]? = some rk) ∨ (k = tbl.length ∧ rk = row) := by
  by_cases hlt : k < tbl.length
  · left
    refine ⟨hlt, ?_⟩
    rw [List.getElem?_append, if_pos hlt] at hk
    exact hk
  · right
    rw [List.getElem?_append, if_neg hlt] at hk
    rcases Nat.lt_or_ge (k - tbl.length) 1 with h1 | h1
    · have h0 : k - tbl.length = 0 := Nat.lt_one_iff.mp h1
      rw [h0] at hk
      simp at hk
      exact ⟨by omega, hk.symm⟩
    · rw [List.getElem?_eq_none (by simpa using h1)] at hk
      exact Option.noConfusion hk

/-- At most one MHeard-shaped `messages` row (src type `ble`, type `pos`,
msg id NULL) per source callsign per 2-minute window. -/
def MheardInv (tbl : List Row) : Prop :=
  ∀ (i j : Nat) (ri rj : Row), i ≠ j →
    tbl[i]? = some ri → tbl[j]? = some rj →
    ri.src = rj.src →
    ri.src_type = "ble" → ri.typ = "pos" → ri.msg_id = none →
    rj.src_type = "ble" → rj.typ = "pos" → rj.msg_id = none →
    MHEARD_THROTTLE_MS ≤ ri.timestamp - rj.timestamp ∨
      MHEARD_THROTTLE_MS ≤ rj.timestamp - ri.timestamp

theorem MheardInv_transfer (l l' : List Row)
    (h : ∀ k : Nat, (l'[k]?).map mhProj = (l[k]?).map mhProj) :
    MheardInv l → MheardInv l' := by
  intro hinv i j ri rj hij hi hj hsrc hst1 hty1 hmid1 hst2 hty2 hmid2
  obtain ⟨si, hsi, hpi⟩ := map_proj_resolve mhProj l l' h i ri hi
  obtain ⟨sj, hsj, hpj⟩ := map_proj_resolve mhProj l l' h j rj hj
  simp only [mhProj, Prod.mk.injEq] at hpi hpj
  obtain ⟨hpi1, hpi2, hpi3, hpi4, hpi5⟩ := hpi
  obtain ⟨hpj1, hpj2, hpj3, hpj4, hpj5⟩ := hpj
  have := hinv i j si sj hij hsi hsj (by rw [hpi1, hpj1]; exact hsrc)
    (by rw [hpi2]; exact hst1) (by rw [hpi3]; exact hty1) (by rw [hpi4]; exact hmid1)
    (by rw [hpj2]; exact hst2) (by rw [hpj3]; exact hty2) (by rw [hpj4]; exact hmid2)
  rw [hpi5, hpj5] at this
  exact this

theorem MheardInv_append (tbl : List Row) (row : Row)
    (hinv : MheardInv tbl)
    (hsep : row.src_type = "ble" → row.typ = "pos" → row.msg_id = none →
      ∀ (k : Nat) (r : Row), tbl[k]? = some r → r.src = row.src →
        r.src_type = "ble" → r.typ = "pos" → r.msg_id = none →
        r.timestamp ≤ row.timestamp - MHEARD_THROTTLE_MS) :
    MheardInv (tbl ++ [row]) := by
  intro i j ri rj hij hi hj hsrc hst1 hty1 hmid1 hst2 hty2 hmid2
  rcases append_single_getElem? tbl row i ri hi with ⟨hilt, hi'⟩ | ⟨hieq, hri⟩
  · rcases append_single_getElem? tbl row j rj hj with ⟨hjlt, hj'⟩ | ⟨hjeq, hrj⟩
    · exact hinv i j ri rj hij hi' hj' hsrc hst1 hty1 hmid1 hst2 hty2 hmid2
    · subst hrj
      have := hsep hst2 hty2 hmid2 i ri hi' hsrc hst1 hty1 hmid1
      right
      linarith
  · subst hri
    rcases append_single_getElem? tbl ri j rj hj with ⟨hjlt, hj'⟩ | ⟨hjeq, hrj⟩
    · have := hsep hst1 hty1 hmid1 j rj hj' hsrc.symm hst2 hty2 hmid2
      left
      linarith
    · exact absurd (hieq.trans hjeq.symm) hij

theorem ackStep_no_ack (msg : String) (tbl : List Row)
    (h : pyContains msg ":ack" = false) : ackStep msg tbl = tbl := by
  unfold ackStep
  rw [if_neg (by simp [h])]

theorem lexLt_asymm : ∀ x y : List Char, lexLt x y = true → lexLt y x = false := by
  intro x
  induction x with
  | nil => intro y h; cases y <;> simp_all [lexLt]
  | cons a as ih =>
      intro y h
      cases y with
      | nil => simp_all [lexLt]
      | cons b bs =>
          simp only [lexLt] at h ⊢
          by_cases hab : a = b
          · subst hab; simp_all
          · have : ¬ b = a := fun hba => hab hba.symm
            simp only [hab, if_false, decide_eq_true_eq] at h
            simp only [this, if_false, decide_eq_false_iff_not]
            exact not_lt_of_gt h

theorem lexLt_connex : ∀ x y : List Char, lexLt x y = false → lexLt y x = false → x = y := by
  intro x
  induction x with
  | nil => intro y h _; cases y <;> simp_all [lexLt]
  | cons a as ih =>
      intro y h h'
      cases y with
      | nil => simp_all [lexLt]
      | cons b bs =>
          simp only [lexLt] at h h'
          by_cases hab : a = b
          · subst hab; simp_all
            exact ih bs h h'
          · have hba : ¬ b = a := fun hba => hab hba.symm
            simp only [hab, if_false, decide_eq_false_iff_not, not_lt] at h
            simp only [hba, if_false, decide_eq_false_iff_not, not_lt] at h'
            exact absurd (le_antisymm h' h) hab


theorem sensorZero_getD_eq (o : Option Rat) (h : sensorZero o = true) :
    o.getD 0 = 0 := by
  cases o with
  | none => rfl
  | some v =>
      simp only [sensorZero, decide_eq_true_eq] at h
      simpa using h

theorem sensorZero_getD_ne (o : Option Rat) (h : sensorZero o = false) :
    o.getD 0 ≠ 0 := by
  cases o with
  | none => cases h
  | some v =>
      simp only [sensorZero, decide_eq_false_iff_not] at h
      simpa using h

theorem telRecent_new (callsign : String) (d : TelemetryData) (now : Int)
    (posAlt : Option Rat) :
    telRecentPred callsign (d.timestamp.getD now)
      (newTelRowOf callsign d now posAlt) = true := by
  simp [telRecentPred, newTelRowOf]

theorem filterNot_filter (p : TelRow → Bool) (l : List TelRow) :
    (l.filter (fun r => ¬ p r)).filter p = [] := by
  rw [List.filter_eq_nil_iff]
  intro a ha
  have h1 := List.of_mem_filter ha
  simp only [decide_eq_true_eq] at h1
  simpa using h1

theorem replaceResult_filter (p : TelRow → Bool) (l : List TelRow) (x : TelRow)
    (hx : p x = true) :
    ((l.filter (fun r => ¬ p r)) ++ [x]).filter p = [x] := by
  rw [List.filter_append, filterNot_filter]
  simp [hx]

theorem append_single_ne_self (l : List TelRow) (x : TelRow) :
    l ++ [x] ≠ l := by
  intro h
  have := congrArg List.length h
  simp at this

theorem replace_eq_self_pins_r0 (p : TelRow → Bool) (tbl : List TelRow)
    (r0 : TelRow) (rest : List TelRow) (x : TelRow)
    (hrec : tbl.filter p = r0 :: rest) (hx : p x = true)
    (heq : (tbl.filter (fun r => ¬ p r)) ++ [x] = tbl) :
    r0 = x := by
  have h2 := congrArg (List.filter p) heq
  rw [replaceResult_filter p tbl x hx, hrec] at h2
  injection h2 with ha _
  exact ha.symm

theorem append_ne_replace (p : TelRow → Bool) (tbl : List TelRow)
    (r0 : TelRow) (rest : List TelRow) (x : TelRow)
    (hrec : tbl.filter p = r0 :: rest) (hx : p x = true)
    (heq : tbl ++ [x] = (tbl.filter (fun r => ¬ p r)) ++ [x]) :
    False := by
  have h2 := congrArg (List.filter p) heq
  rw [List.filter_append, hrec, replaceResult_filter p tbl x hx] at h2
  have h3 : List.filter p [x] = [x] := by simp [hx]
  rw [h3] at h2
  have := congrArg List.length h2
  simp at this

end Storage

namespace Router

theorem find?_map_fstPreserving {H : Type} (t : String)
    (f : (String × List H) → (String × List H))
    (hf : ∀ p, (f p).1 = p.1) :
    ∀ l : List (String × List H),
      (l.map f).find? (fun p => p.1 = t) = (l.find? (fun p => p.1 = t)).map f := by
  intro l
  induction l with
  | nil => simp
  | cons q qs ih =>
      simp only [List.map_cons, List.find?_cons]
      by_cases hq : q.1 = t
      · simp [hf q, hq]
      · simp [hf q, hq, ih]

theorem subscribersFor_subscribe (r : Router.MessageRouter α ε β) (t : String)
    (handler : Router.RoutedMessage α → Except ε β) :
    Router.subscribersFor (Router.subscribe r t handler) t =
      Router.subscribersFor r t ++ [handler] := by
  obtain ⟨l⟩ := r
  by_cases hex : l.any (fun p => p.1 = t)
  · have hfind : ∃ q, l.find? (fun p => p.1 = t) = some q := by
      rcases List.any_eq_true.mp hex with ⟨q, hq, hqt⟩
      have : (l.find? (fun p => p.1 = t)).isSome := by
        rw [List.find?_isSome]
        exact ⟨q, hq, hqt⟩
      exact Option.isSome_iff_exists.mp this
    rcases hfind with ⟨q, hq⟩
    have hqt : q.1 = t := by simpa using List.find?_some hq
    simp only [Router.subscribe, hex, if_true, Router.subscribersFor]
    rw [find?_map_fstPreserving t _ (fun p => by by_cases hp : p.1 = t <;> simp [hp]), hq]
    simp [hq, hqt]
  · have hnone : l.find? (fun p => p.1 = t) = none := by
      rw [List.find?_eq_none]
      intro p hp
      simp only [decide_eq_true_eq]
      intro hpt
      exact hex (List.any_eq_true.mpr ⟨p, hp, by simpa using hpt⟩)
    have hsub : Router.subscribe ⟨l⟩ t handler = ⟨l ++ [(t, [handler])]⟩ := by
      simp [Router.subscribe, hex]
    rw [hsub]
    simp only [Router.subscribersFor]
    rw [List.find?_append, hnone]
    simp [hnone]

end Router

namespace McProxy

theorem cleanup_blocked_read (now : Rat) (st : DedupState) (src : String) :
    (cleanup_blocked_users now st).blocked_users src
      = match st.blocked_users src with
        | some t => if t < now - block_duration then none else some t
        | none => none := by
  unfold cleanup_blocked_users
  cases h : st.blocked_users src with
  | none => simp [h]
  | some t => by_cases hc : t < now - block_duration <;> simp [h, hc]

theorem cleanup_failed_read (now : Rat) (st : DedupState) :
    (cleanup_blocked_users now st).failed_attempts = st.failed_attempts := rfl

theorem cleanup_notif_read (now : Rat) (st : DedupState) (src : String)
    (h : st.block_notifications_sent src = false) :
    (cleanup_blocked_users now st).block_notifications_sent src = false := by
  unfold cleanup_blocked_users
  simp [h]

theorem track_failed_read (src : String) (now : Rat) (st : DedupState) :
    (track_failed_attempt src now st).failed_attempts src
      = ((st.failed_attempts src) ++ [now]).filter
          (fun t => decide (t > now - failed_attempt_window)) := by
  simp only [track_failed_attempt]
  split <;> simp

theorem track_blocked_read (src : String) (now : Rat) (st : DedupState) :
    (track_failed_attempt src now st).blocked_users src
      = if max_failed_attempts ≤
            (((st.failed_attempts src) ++ [now]).filter
              (fun t => decide (t > now - failed_attempt_window))).length
        then some now else st.blocked_users src := by
  simp only [track_failed_attempt]
  split
  next h => simp
  next h => rfl

theorem track_notif_read (src : String) (now : Rat) (st : DedupState) :
    (track_failed_attempt src now st).block_notifications_sent
      = st.block_notifications_sent := by
  simp only [track_failed_attempt]
  split <;> rfl

theorem cleanup_notif_read_true (now : Rat) (st : DedupState) (src : String) (tb : Rat)
    (hb : st.blocked_users src = some tb) (hn : st.block_notifications_sent src = true)
    (hu : ¬ tb < now - block_duration) :
    (cleanup_blocked_users now st).block_notifications_sent src = true := by
  unfold cleanup_blocked_users
  simp [hb, hn, hu]

theorem handle_raises_unblocked (src : String) (now : Rat) (st : DedupState)
    (hb : (cleanup_blocked_users now st).blocked_users src = none) :
    handleCommandAbuse src now ExecOutcome.raises st
      = (track_failed_attempt src now (cleanup_blocked_users now st), true,
          some "❌ Command failed") := by
  simp only [handleCommandAbuse, is_user_blocked]
  simp [hb]

theorem handle_blocked_first (src : String) (now : Rat) (o : ExecOutcome)
    (st : DedupState)
    (hb : ((cleanup_blocked_users now st).blocked_users src).isSome = true)
    (hn : (cleanup_blocked_users now st).block_notifications_sent src = false) :
    (handleCommandAbuse src now o st).2 = (false, some timeoutReply)
      ∧ (handleCommandAbuse src now o st).1.blocked_users
          = (cleanup_blocked_users now st).blocked_users
      ∧ (handleCommandAbuse src now o st).1.block_notifications_sent src = true := by
  simp only [handleCommandAbuse, is_user_blocked]
  simp [hb, hn]

theorem handle_blocked_second (src : String) (now : Rat) (o : ExecOutcome)
    (st : DedupState)
    (hb : ((cleanup_blocked_users now st).blocked_users src).isSome = true)
    (hn : (cleanup_blocked_users now st).block_notifications_sent src = true) :
    handleCommandAbuse src now o st = (cleanup_blocked_users now st, false, none) := by
  simp only [handleCommandAbuse, is_user_blocked]
  simp [hb, hn]

theorem take_all_of_len_le {α : Type} (l : List α) : ∀ n, l.length ≤ n → l.take n = l := by
  induction l with
  | nil => intro n _; simp
  | cons a l ih =>
      intro n h
      cases n with
      | zero => simp at h
      | succ m => simp [List.take, ih m (by simpa using h)]

theorem prefixChunks_length (total : Nat) (l : List String) :
    ∀ i, (prefixChunks total i l).length = l.length := by
  induction l with
  | nil => intro i; rfl
  | cons c rest ih => intro i; simp [prefixChunks, ih]

theorem sendsOf_sendEventsGo (total : Nat) (l : List String) :
    ∀ i, sendsOf (sendEventsGo total i l)
      = if 1 < total then prefixChunks total i l else l := by
  induction l with
  | nil =>
      intro i
      simp only [sendEventsGo, prefixChunks, sendsOf]
      split <;> rfl
  | cons c rest ih =>
      intro i
      by_cases h1 : 1 < total <;> by_cases h2 : i < total - 1 <;>
        simp [sendEventsGo, sendsOf, prefixChunks, h1, h2, ih]

theorem countSends_sendEventsGo (total : Nat) (l : List String) (i : Nat) :
    countSends (sendEventsGo total i l) = l.length := by
  rw [countSends, sendsOf_sendEventsGo]
  split
  · rw [prefixChunks_length]
  · rfl

theorem countDelays_sendEventsGo (total : Nat) (l : List String) :
    ∀ i, i + l.length = total →
      countDelays (sendEventsGo total i l) = l.length - 1 := by
  induction l with
  | nil => intro i _; rfl
  | cons c rest ih =>
      intro i h
      by_cases h2 : i < total - 1
      · have hrest : rest ≠ [] := by
          intro he
          subst he
          simp at h
          omega
        have hr := ih (i + 1) (by simp at h ⊢; omega)
        simp only [sendEventsGo, if_pos h2, List.singleton_append, countDelays, hr]
        have : rest.length ≠ 0 := by
          intro h0
          exact hrest (List.length_eq_zero.mp h0)
        simp
        omega
      · have hrest : rest = [] := by
          apply List.length_eq_zero.mp
          simp at h
          omega
        subst hrest
        simp [sendEventsGo, h2, countDelays]

theorem sendEventsGo_mem (total : Nat) (l : List String) :
    ∀ i, ∀ e ∈ sendEventsGo total i l,
      e = SendEvent.delay 12 ∨ SendEvent.isSend e = true := by
  induction l with
  | nil => intro i e he; simp [sendEventsGo] at he
  | cons c rest ih =>
      intro i e he
      by_cases h2 : i < total - 1
      · simp only [sendEventsGo, if_pos h2, List.singleton_append,
          List.mem_cons] at he
        rcases he with h | h | h
        · subst h; right; rfl
        · subst h; left; rfl
        · exact ih (i + 1) e h
      · simp only [sendEventsGo, if_neg h2, List.nil_append, List.mem_cons] at he
        rcases he with h | h
        · subst h; right; rfl
        · exact ih (i + 1) e h

theorem chunk_response_length_le (r : String) :
    (chunk_response r).length ≤ MAX_CHUNKS := by
  unfold chunk_response
  split
  · simp [MAX_CHUNKS]
  · rw [List.length_take]
    exact min_le_left _ _

end McProxy

namespace Ctcping

theorem inv_upd_pings (s : PingState) (h : PingInv s)
    (l : List PingRec) (e : Bool) (pc : Nat) :
    PingInv { s with activePings := l, completionEvent := e,
                     pendingComplete := pc } :=
  h

theorem inv_monitor_off (s : PingState) (h : PingInv s) (ht : s.test = none) :
    PingInv { s with monitorAlive := false } :=
  ⟨h.1, h.2.1, fun _ => h.2.1.mp ht, h.2.2.2⟩

theorem inv_emit (s : PingState) (h : PingInv s) (ht : s.test ≠ none)
    (l : List PingRec) (e : Bool) (pc : Nat) :
    PingInv { s with test := none, activePings := l, completionEvent := e,
                     pendingComplete := pc, monitorAlive := false,
                     emitted := s.emitted + 1 } := by
  have hne : s.emitted ≠ 1 := fun he => ht (h.2.1.mpr he)
  have h1 := h.1
  refine ⟨?_, ⟨fun _ => ?_, fun _ => rfl⟩, fun _ => ?_, ?_⟩
  · show s.emitted + 1 ≤ 1
    omega
  · show s.emitted + 1 = 1
    omega
  · show s.emitted + 1 = 1
    omega
  · intro t' ht'
    exact Option.noConfusion ht'

theorem inv_upd_test (s : PingState) (t t' : TestRec) (h : PingInv s)
    (ht : s.test = some t)
    (hc : t'.completed ≤ t'.completedSeqs.length)
    (hn : t'.completedSeqs.Nodup)
    (hs : t'.status = TestStatus.running)
    (l : List PingRec) (e : Bool) (pc : Nat) :
    PingInv { s with test := some t', activePings := l, completionEvent := e,
                     pendingComplete := pc } := by
  have hne : s.emitted ≠ 1 := fun he => by
    rw [h.2.1.mpr he] at ht
    cases ht
  refine ⟨h.1, ⟨fun hx => Option.noConfusion hx, fun he => absurd he hne⟩,
    h.2.2.1, ?_⟩
  intro u hu
  injection hu with hu'
  subst hu'
  exact ⟨hc, hn, hs⟩

theorem recordTimeout_fields (t : TestRec) :
    (recordTimeout t).completed = t.completed
      ∧ (recordTimeout t).completedSeqs = t.completedSeqs
      ∧ (recordTimeout t).status = t.status := by
  unfold recordTimeout
  split <;> exact ⟨rfl, rfl, rfl⟩

theorem capTest_fields (t : TestRec) :
    (capTest t).completed ≤ t.completed
      ∧ (capTest t).completedSeqs = t.completedSeqs
      ∧ (capTest t).status = t.status := by
  unfold capTest
  split
  · split
    · exact ⟨Nat.sub_le _ _, rfl, rfl⟩
    · exact ⟨Nat.le_refl _, rfl, rfl⟩
  · exact ⟨Nat.le_refl _, rfl, rfl⟩

theorem ackStepPing_miss (s : PingState) (a : Nat)
    (hf : findPing s.activePings a = none) :
    ackStepPing s a = s := by
  unfold ackStepPing
  rw [hf]

theorem ackStepPing_noTest (s : PingState) (a : Nat) (p : PingRec)
    (hf : findPing s.activePings a = some p) (ht : s.test = none) :
    ackStepPing s a = { s with activePings := removePing s.activePings a } := by
  unfold ackStepPing
  rw [hf, ht]

theorem ackStepPing_found (s : PingState) (a : Nat) (p : PingRec) (t : TestRec)
    (hf : findPing s.activePings a = some p) (ht : s.test = some t) :
    ackStepPing s a =
      (if t.status = TestStatus.running then
        (if p.seq ∈ t.completedSeqs then
          { s with activePings := removePing s.activePings a }
        else
          { s with
              test := some { t with
                completedSeqs := p.seq :: t.completedSeqs,
                completed := t.completed + 1 },
              activePings := removePing s.activePings a,
              completionEvent := s.completionEvent
                || decide (t.total_pings ≤ t.completed + 1 + t.timeouts),
              pendingComplete := s.pendingComplete
                + (if decide (t.total_pings ≤ t.completed + 1 + t.timeouts)
                      && ! s.completionEvent then 1 else 0) })
      else { s with activePings := removePing s.activePings a }) := by
  unfold ackStepPing
  rw [hf, ht]

theorem timeoutStepPing_miss (s : PingState) (a : Nat)
    (hf : findPing s.activePings a = none) :
    timeoutStepPing s a = s := by
  unfold timeoutStepPing
  rw [hf]

theorem timeoutStepPing_noTest (s : PingState) (a : Nat) (p : PingRec)
    (hf : findPing s.activePings a = some p) (ht : s.test = none) :
    timeoutStepPing s a
      = { s with activePings := removePing s.activePings a } := by
  unfold timeoutStepPing
  rw [hf, ht]

theorem timeoutStepPing_found (s : PingState) (a : Nat) (p : PingRec) (t : TestRec)
    (hf : findPing s.activePings a = some p) (ht : s.test = some t) :
    timeoutStepPing s a =
      (if t.status = TestStatus.running then
        { s with
            test := some (capTest (recordTimeout t)),
            activePings := removePing s.activePings a,
            completionEvent := s.completionEvent
              || decide ((capTest (recordTimeout t)).total_pings
                  ≤ (capTest (recordTimeout t)).completed
                    + (capTest (recordTimeout t)).timeouts),
            pendingComplete := s.pendingComplete
              + (if decide ((capTest (recordTimeout t)).total_pings
                      ≤ (capTest (recordTimeout t)).completed
                        + (capTest (recordTimeout t)).timeouts)
                    && ! s.completionEvent then 1 else 0) }
      else { s with activePings := removePing s.activePings a }) := by
  unfold timeoutStepPing
  rw [hf, ht]

theorem monitorPollStep_off (s : PingState) (hm : s.monitorAlive = false) :
    monitorPollStep s = s := by
  unfold monitorPollStep
  rw [if_neg (by rw [hm]; exact Bool.false_ne_true)]

theorem monitorPollStep_gone (s : PingState) (hm : s.monitorAlive = true)
    (ht : s.test = none) :
    monitorPollStep s = { s with monitorAlive := false } := by
  unfold monitorPollStep
  rw [if_pos hm, ht]

theorem monitorPollStep_live (s : PingState) (t : TestRec)
    (hm : s.monitorAlive = true) (ht : s.test = some t) :
    monitorPollStep s =
      (if t.total_pings ≤ t.completed + t.timeouts then
        { s with test := none, monitorAlive := false, emitted := s.emitted + 1 }
      else s) := by
  unfold monitorPollStep
  rw [if_pos hm, ht]

theorem monitorTimeoutStep_off (s : PingState) (hm : s.monitorAlive = false) :
    monitorTimeoutStep s = s := by
  unfold monitorTimeoutStep
  rw [if_neg (by rw [hm]; exact Bool.false_ne_true)]

theorem monitorTimeoutStep_gone (s : PingState) (hm : s.monitorAlive = true)
    (ht : s.test = none) :
    monitorTimeoutStep s = { s with monitorAlive := false } := by
  unfold monitorTimeoutStep
  rw [if_pos hm, ht]

theorem monitorTimeoutStep_live (s : PingState) (t : TestRec)
    (hm : s.monitorAlive = true) (ht : s.test = some t) :
    monitorTimeoutStep s
      = { s with test := none, monitorAlive := false,
                 emitted := s.emitted + 1 } := by
  unfold monitorTimeoutStep
  rw [if_pos hm, ht]

theorem completeTaskStep_idle (s : PingState) (hp : s.pendingComplete = 0) :
    completeTaskStep s = s := by
  unfold completeTaskStep
  rw [if_pos hp]

theorem completeTaskStep_gone (s : PingState) (hp : ¬ s.pendingComplete = 0)
    (ht : s.test = none) :
    completeTaskStep s
      = { s with completionEvent := false,
                 pendingComplete := s.pendingComplete - 1 } := by
  unfold completeTaskStep
  rw [if_neg hp, ht]

theorem completeTaskStep_live (s : PingState) (t : TestRec)
    (hp : ¬ s.pendingComplete = 0) (ht : s.test = some t) :
    completeTaskStep s =
      (if t.status = TestStatus.running then
        { s with test := none, monitorAlive := false, emitted := s.emitted + 1,
                 completionEvent := false,
                 pendingComplete := s.pendingComplete - 1 }
      else { s with completionEvent := false,
                    pendingComplete := s.pendingComplete - 1 }) := by
  unfold completeTaskStep
  rw [if_neg hp, ht]

theorem stepPing_inv (s : PingState) (a : PingAction) (h : PingInv s) :
    PingInv (stepPing s a) := by
  cases a with
  | ack a =>
    show PingInv (ackStepPing s a)
    cases hf : findPing s.activePings a with
    | none => rw [ackStepPing_miss s a hf]; exact h
    | some p =>
      cases ht : s.test with
      | none =>
        rw [ackStepPing_noTest s a p hf ht]
        exact inv_upd_pings s h _ _ _
      | some t =>
        rw [ackStepPing_found s a p t hf ht]
        by_cases hrun : t.status = TestStatus.running
        · rw [if_pos hrun]
          by_cases hseq : p.seq ∈ t.completedSeqs
          · rw [if_pos hseq]
            exact inv_upd_pings s h _ _ _
          · rw [if_neg hseq]
            obtain ⟨hc, hn, hs⟩ := h.2.2.2 t ht
            refine inv_upd_test s t _ h ht ?_ ?_ ?_ _ _ _
            · exact Nat.succ_le_succ hc
            · exact List.nodup_cons.mpr ⟨hseq, hn⟩
            · exact hs
        · rw [if_neg hrun]
          exact inv_upd_pings s h _ _ _
  | timeoutPing a =>
    show PingInv (timeoutStepPing s a)
    cases hf : findPing s.activePings a with
    | none => rw [timeoutStepPing_miss s a hf]; exact h
    | some p =>
      cases ht : s.test with
      | none =>
        rw [timeoutStepPing_noTest s a p hf ht]
        exact inv_upd_pings s h _ _ _
      | some t =>
        rw [timeoutStepPing_found s a p t hf ht]
        by_cases hrun : t.status = TestStatus.running
        · rw [if_pos hrun]
          obtain ⟨hc, hn, hs⟩ := h.2.2.2 t ht
          obtain ⟨hr1, hr2, hr3⟩ := recordTimeout_fields t
          obtain ⟨hc1, hc2, hc3⟩ := capTest_fields (recordTimeout t)
          refine inv_upd_test s t _ h ht ?_ ?_ ?_ _ _ _
          · rw [hc2, hr2]
            exact le_trans hc1 (by rw [hr1]; exact hc)
          · rw [hc2, hr2]
            exact hn
          · rw [hc3, hr3]
            exact hs
        · rw [if_neg hrun]
          exact inv_upd_pings s h _ _ _
  | monitorPoll =>
    show PingInv (monitorPollStep s)
    cases hm : s.monitorAlive with
    | false => rw [monitorPollStep_off s hm]; exact h
    | true =>
      cases ht : s.test with
      | none =>
        rw [monitorPollStep_gone s hm ht]
        exact inv_monitor_off s h ht
      | some t =>
        rw [monitorPollStep_live s t hm ht]
        by_cases hdone : t.total_pings ≤ t.completed + t.timeouts
        · rw [if_pos hdone]
          exact inv_emit s h (fun hx => by rw [ht] at hx; cases hx) _ _ _
        · rw [if_neg hdone]
          exact h
  | monitorTimeout =>
    show PingInv (monitorTimeoutStep s)
    cases hm : s.monitorAlive with
    | false => rw [monitorTimeoutStep_off s hm]; exact h
    | true =>
      cases ht : s.test with
      | none =>
        rw [monitorTimeoutStep_gone s hm ht]
        exact inv_monitor_off s h ht
      | some t =>
        rw [monitorTimeoutStep_live s t hm ht]
        exact inv_emit s h (fun hx => by rw [ht] at hx; cases hx) _ _ _
  | completeTask =>
    show PingInv (completeTaskStep s)
    by_cases hp : s.pendingComplete = 0
    · rw [completeTaskStep_idle s hp]
      exact h
    · cases ht : s.test with
      | none =>
        rw [completeTaskStep_gone s hp ht]
        exact inv_upd_pings s h _ _ _
      | some t =>
        rw [completeTaskStep_live s t hp ht]
        by_cases hrun : t.status = TestStatus.running
        · rw [if_pos hrun]
          exact inv_emit s h (fun hx => by rw [ht] at hx; cases hx) _ _ _
        · rw [if_neg hrun]
          exact inv_upd_pings s h _ _ _

theorem runPing_inv (tr : List PingAction) :
    ∀ s : PingState, PingInv s → PingInv (runPing s tr) := by
  induction tr with
  | nil => intro s h; exact h
  | cons a rest ih =>
      intro s h
      exact ih (stepPing s a) (stepPing_inv s a h)

theorem initPing_inv (K : Nat) (pings : List PingRec) :
    PingInv (initPing K pings) := by
  refine ⟨?_, ⟨fun hx => Option.noConfusion hx, fun hx => ?_⟩,
    fun hx => ?_, ?_⟩
  · show (0:Nat) ≤ 1
    omega
  · exact absurd hx (by show (0:Nat) ≠ 1; decide)
  · exact Bool.noConfusion hx
  · intro t ht
    injection ht with ht'
    subst ht'
    exact ⟨Nat.le_refl 0, List.nodup_nil, rfl⟩

end Ctcping

namespace Claims

open Validator
open Storage

/-- C1 counterexample: on destination `"??"` — which is not `*`, `ALL` or
empty, but fails the validator's destination patterns — the code suppresses
the outbound command even though a target other than my callsign is
extracted, while the claim's ordered rules (rule 3 limited to `*`/`ALL`/empty,
rule 7 for a foreign target) say it must be sent to the mesh. -/
theorem C1_counterexample_invalid_dst :
    should_suppress_outbound "DK5EN-1" "DK5EN-1" "??" "!WX OE5HWN-12" = true
      ∧ claimSuppressionOracle "DK5EN-1" "DK5EN-1" "??" "!WX OE5HWN-12" = false
      ∧ extract_target_callsign "!WX OE5HWN-12" = some "OE5HWN-12" :=
  ⟨by decide, by decide, by decide⟩

/-- C1 (amended): the suppression oracle follows the ordered rules with the
invalid-destination rule widened to the validator's full check — a
destination is invalid unless it matches `[A-Z0-9]{2,8}(-\d{1,2})?` or is a
group (`TEST` or numeric 1–99999); `*`, `ALL` and empty are particular
invalid cases.  Rules: foreign source never suppresses; a non-command never
suppresses; an invalid destination suppresses; with a valid destination, no
extracted target or a target equal to my callsign suppresses, and a foreign
target does not suppress. -/
theorem C1_suppression_oracle_rules (my src dst msg : String) :
    (src ≠ my → should_suppress_outbound my src dst msg = false)
    ∧ (is_command msg = false → should_suppress_outbound my src dst msg = false)
    ∧ (src = my → is_command msg = true → is_valid_destination dst = false →
        should_suppress_outbound my src dst msg = true)
    ∧ (src = my → is_command msg = true → is_valid_destination dst = true →
        extract_target_callsign msg = none →
        should_suppress_outbound my src dst msg = true)
    ∧ (src = my → is_command msg = true → is_valid_destination dst = true →
        extract_target_callsign msg = some my →
        should_suppress_outbound my src dst msg = true)
    ∧ (∀ t, src = my → is_command msg = true → is_valid_destination dst = true →
        extract_target_callsign msg = some t → t ≠ my →
        should_suppress_outbound my src dst msg = false) := by
  refine ⟨?_, ?_, ?_, ?_, ?_, ?_⟩
  · intro h; simp [should_suppress_outbound, h]
  · intro h; simp [should_suppress_outbound, h]
  · intro h hc hv; simp [should_suppress_outbound, h, hc, hv]
  · intro h hc hv ht; simp [should_suppress_outbound, h, hc, hv, ht]
  · intro h hc hv ht; simp [should_suppress_outbound, h, hc, hv, ht]
  · intro t h hc hv ht hne; simp [should_suppress_outbound, h, hc, hv, ht, hne]

/-- C1 witness: concrete application of the amended oracle rules — my own
command to group 20 naming the foreign target `OE5HWN-12` is not
suppressed. -/
theorem C1_suppression_oracle_rules_witness :
    should_suppress_outbound "DK5EN-1" "DK5EN-1" "20" "!WX OE5HWN-12" = false :=
  (C1_suppression_oracle_rules "DK5EN-1" "DK5EN-1" "20" "!WX OE5HWN-12").2.2.2.2.2
    "OE5HWN-12" rfl (by decide) (by decide) (by decide) (by decide)

/-- C2: for every `publish`, the outcome list has exactly one entry per
handler subscribed to the topic, each entry is that handler applied (once)
to the routed message, in registration order (`subscribe` appends, so list
order is registration order); an `.error` outcome (a raised and caught
exception) at position `i` leaves every later handler's delivery unchanged;
and `publish` is a total function returning the outcome list — it never
propagates a subscriber's exception. -/
theorem C2_publish_serial_isolated {α ε β : Type}
    (r : Router.MessageRouter α ε β) (source mt : String) (data : α) (now : Int)
    (handler : Router.RoutedMessage α → Except ε β) :
    (Router.publish r source mt data now).length =
        (Router.subscribersFor r mt).length
    ∧ (∀ i : Nat, (Router.publish r source mt data now)[i]? =
        ((Router.subscribersFor r mt)[i]?).map
          (fun h => h { source := source, type := mt, data := data, timestamp := now }))
    ∧ (∀ i j : Nat, ∀ e : ε, i < j →
        (Router.publish r source mt data now)[i]? = some (Except.error e) →
        (Router.publish r source mt data now)[j]? =
          ((Router.subscribersFor r mt)[j]?).map
            (fun h => h { source := source, type := mt, data := data, timestamp := now }))
    ∧ Router.subscribersFor (Router.subscribe r mt handler) mt =
        Router.subscribersFor r mt ++ [handler] := by
  refine ⟨?_, ?_, ?_, Router.subscribersFor_subscribe r mt handler⟩
  · simp [Router.publish]
  · intro i; simp [Router.publish]
  · intro i j e _ _; simp [Router.publish]

/-- C2 witness: a three-subscriber topic where the second handler raises —
the third handler still receives the event and produces its outcome. -/
theorem C2_publish_serial_isolated_witness :
    (Router.publish
      (⟨[("mesh_message",
         [fun m => Except.ok m.data,
          fun _ => (Except.error "boom" : Except String Nat),
          fun m => Except.ok (m.data + 1)])]⟩ : Router.MessageRouter Nat String Nat)
      "udp" "mesh_message" 5 0)[2]? = some (Except.ok 6) := by
  have h := (C2_publish_serial_isolated
    (⟨[("mesh_message",
       [fun m => Except.ok m.data,
        fun _ => (Except.error "boom" : Except String Nat),
        fun m => Except.ok (m.data + 1)])]⟩ : Router.MessageRouter Nat String Nat)
    "udp" "mesh_message" 5 0 (fun _ => Except.ok 0)).2.2.1 1 2 "boom"
    (by decide) (by rfl)
  exact h.trans (by rfl)

/-- C3 counterexample: a duplicate delivery of a message whose text carries
an `:ackNNN` tail is rejected by the 20-minute msg-id dedup (no new row),
but it does NOT leave the store unchanged: its inline ACK matching runs
before the dedup check and flips the `acked` flag of the most recent row
with echo id `123` — which, after another message reused that echo id, is a
different row from the one the first delivery marked. -/
theorem C3_counterexample_duplicate_updates_store :
    c3Res.length = c3Tbl.length
      ∧ c3Res ≠ c3Tbl
      ∧ (c3Tbl[2]?).map (fun r => r.acked) = some false
      ∧ (c3Res[2]?).map (fun r => r.acked) = some true :=
  ⟨by decide, by decide, by decide, by decide⟩

/-- C3 (amended): for every inbound message with a non-null msg id, when a
row with the same msg id and a timestamp inside the preceding 20 minutes
already exists, `store_message` inserts no new row into `messages` — the
table keeps its length and every row keeps its identity (msg id, src, dst,
text, type); only ACK-bookkeeping flags and MHeard signal fields of
existing rows may still change.  Moreover `store_message` unconditionally
preserves the invariant that any two distinct rows with the same msg id are
at least 20 minutes apart — hence at most one row with a given msg id
exists within any 20-minute window. -/
theorem C3_store_message_dedup (m : Msg) (raw : String) (now : Int)
    (tbl : List Row) (mid : Nat) :
    (m.msg_id = some mid →
      (∃ (k : Nat) (r : Row), tbl[k]? = some r ∧ r.msg_id = some mid ∧
          m.timestamp.getD now - DEDUP_WINDOW_MS < r.timestamp) →
      (store_message m raw now tbl).length = tbl.length
        ∧ ∀ k : Nat, ((store_message m raw now tbl)[k]?).map coreOf
            = (tbl[k]?).map coreOf)
    ∧ (DedupInv tbl → DedupInv (store_message m raw now tbl)) := by
  constructor
  · intro h1 h2
    by_cases hfil : should_filter_message m = true
    · rw [store_message_filtered m raw now tbl hfil]
      exact ⟨rfl, fun k => rfl⟩
    · have hfil' : should_filter_message m = false := by
        cases hf : should_filter_message m
        · rfl
        · exact absurd hf hfil
      by_cases htele : m.typ = "tele"
      · rw [store_message_tele m raw now tbl hfil' htele]
        exact ⟨rfl, fun k => rfl⟩
      · by_cases hackt : m.typ = "ack"
        · rw [store_message_ack m raw now tbl hfil' hackt]
          cases m.ack_id with
          | none => exact ⟨rfl, fun k => rfl⟩
          | some aid =>
              have hpt := fun k =>
                updateSendSuccess_map_proj coreOf (fun r => rfl) tbl aid k
              exact ⟨map_proj_length coreOf tbl _ hpt, hpt⟩
        · rw [store_message_main m raw now tbl hfil' htele hackt]
          have hDhit : (match m.msg_id with
              | some mid' =>
                  (ackStep m.msg tbl).any (dedupPred mid' (m.timestamp.getD now))
              | none => false) = true := by
            rw [h1]
            show (ackStep m.msg tbl).any (dedupPred mid (m.timestamp.getD now)) = true
            rw [ackStep_any (dedupPred mid (m.timestamp.getD now)) (fun r => rfl) m.msg tbl]
            rcases h2 with ⟨k, r, hk, hmid2, hts2⟩
            refine List.any_eq_true.mpr ⟨r, List.mem_iff_getElem?.mpr ⟨k, hk⟩, ?_⟩
            simp only [dedupPred, Bool.and_eq_true, decide_eq_true_eq]
            exact ⟨hmid2, hts2⟩
          have hACore := fun k => ackStep_map_proj coreOf (fun r => rfl) m.msg tbl k
          have hAStep : ((ackStep m.msg tbl).length = tbl.length
              ∧ ∀ k : Nat, ((ackStep m.msg tbl)[k]?).map coreOf
                  = (tbl[k]?).map coreOf) :=
            ⟨map_proj_length coreOf tbl _ hACore, hACore⟩
          by_cases hmh : (msgIdFalsy m.msg_id && m.src_type = "ble"
              && m.typ = "pos") = true
          · rw [if_pos hmh]
            cases hsel : selectLatest (mheardPred m.src (m.timestamp.getD now))
                (ackStep m.msg tbl) with
            | none =>
                simp only [hsel]
                rw [if_pos hDhit]
                exact hAStep
            | some ir =>
                obtain ⟨i, r⟩ := ir
                simp only [hsel]
                have hpt : ∀ k : Nat,
                    ((modifyAt (ackStep m.msg tbl) i
                        (mheardUpdateF m raw (m.timestamp.getD now)))[k]?).map coreOf
                      = (tbl[k]?).map coreOf := by
                  intro k
                  rw [modifyAt_map_proj coreOf (ackStep m.msg tbl) i
                    (mheardUpdateF m raw (m.timestamp.getD now)) (fun r => rfl) k]
                  exact hACore k
                exact ⟨map_proj_length coreOf tbl _ hpt, hpt⟩
          · rw [if_neg hmh, if_pos hDhit]
            exact hAStep
  · intro hinv
    by_cases hfil : should_filter_message m = true
    · rw [store_message_filtered m raw now tbl hfil]; exact hinv
    · have hfil' : should_filter_message m = false := by
        cases hf : should_filter_message m
        · rfl
        · exact absurd hf hfil
      by_cases htele : m.typ = "tele"
      · rw [store_message_tele m raw now tbl hfil' htele]; exact hinv
      · by_cases hackt : m.typ = "ack"
        · rw [store_message_ack m raw now tbl hfil' hackt]
          cases m.ack_id with
          | none => exact hinv
          | some aid =>
              exact DedupInv_transfer tbl _ (fun k =>
                Or.inl (updateSendSuccess_map_proj midTs (fun r => rfl) tbl aid k)) hinv
        · rw [store_message_main m raw now tbl hfil' htele hackt]
          have hinv1 : DedupInv (ackStep m.msg tbl) :=
            DedupInv_transfer tbl _ (fun k =>
              Or.inl (ackStep_map_proj midTs (fun r => rfl) m.msg tbl k)) hinv
          have hIns : DedupInv (if (match m.msg_id with
              | some mid' =>
                  (ackStep m.msg tbl).any (dedupPred mid' (m.timestamp.getD now))
              | none => false) then ackStep m.msg tbl
              else ackStep m.msg tbl ++ [newRowOf m raw now]) := by
            cases hmsg : m.msg_id with
            | none =>
                show DedupInv (ackStep m.msg tbl ++ [newRowOf m raw now])
                apply DedupInv_append _ _ hinv1
                intro mid' hrow
                have hrid : (newRowOf m raw now).msg_id = m.msg_id := rfl
                rw [hrid, hmsg] at hrow
                exact absurd hrow (fun hc => Option.noConfusion hc)
            | some mid' =>
                show DedupInv (if (ackStep m.msg tbl).any
                    (dedupPred mid' (m.timestamp.getD now)) then ackStep m.msg tbl
                  else ackStep m.msg tbl ++ [newRowOf m raw now])
                cases hany : (ackStep m.msg tbl).any
                    (dedupPred mid' (m.timestamp.getD now)) with
                | true =>
                    rw [if_pos rfl]
                    exact hinv1
                | false =>
                    rw [if_neg (by simp)]
                    apply DedupInv_append _ _ hinv1
                    intro mid'' hrow k r hk hmidr
                    have hrid : (newRowOf m raw now).msg_id = m.msg_id := rfl
                    rw [hrid, hmsg] at hrow
                    have hmm : mid' = mid'' := Option.some.inj hrow
                    subst hmm
                    have hnot := List.any_eq_false.mp hany r
                      (List.mem_iff_getElem?.mpr ⟨k, hk⟩)
                    have hts' : ¬ (m.timestamp.getD now - DEDUP_WINDOW_MS < r.timestamp) := by
                      intro hc
                      exact hnot (by
                        simp only [dedupPred, Bool.and_eq_true, decide_eq_true_eq]
                        exact ⟨hmidr, hc⟩)
                    have hrts : (newRowOf m raw now).timestamp = m.timestamp.getD now := rfl
                    rw [hrts]
                    linarith
          by_cases hmh : (msgIdFalsy m.msg_id && m.src_type = "ble"
              && m.typ = "pos") = true
          · rw [if_pos hmh]
            cases hsel : selectLatest (mheardPred m.src (m.timestamp.getD now))
                (ackStep m.msg tbl) with
            | none => simp only [hsel]; exact hIns
            | some ir =>
                obtain ⟨i, r⟩ := ir
                simp only [hsel]
                obtain ⟨hmem, hpred⟩ := selectLatest_some _ _ i r hsel
                have hmidnone : r.msg_id = none := by
                  simp only [mheardPred, Bool.and_eq_true, decide_eq_true_eq] at hpred
                  exact hpred.1.2
                apply DedupInv_transfer (ackStep m.msg tbl) _ ?_ hinv1
                intro k
                by_cases hk : k = i
                · right
                  refine ⟨mheardUpdateF m raw (m.timestamp.getD now) r, ?_, hmidnone⟩
                  rw [hk, modifyAt_getElem?, if_pos rfl, hmem]
                  rfl
                · left
                  rw [modifyAt_getElem?, if_neg hk]
          · rw [if_neg hmh]
            exact hIns

/-- C3 witness: in the concrete duplicate-ACK scenario the amended theorem
yields that the duplicate inserts no new row. -/
theorem C3_store_message_dedup_witness :
    c3Res.length = c3Tbl.length :=
  ((C3_store_message_dedup c3mAckDup "r4" 0 c3Tbl 77).1 rfl
    ⟨1, newRowOf c3mAck "r2" 0, by decide, by decide, by decide⟩).1

/-- C4: (a) when an MHeard beacon (falsy msg id, src type `ble`, type
`pos`, no `:ack` text) finds a row matching the throttle predicate (same
src, same shape, timestamp inside the 2-minute window), `store_message`
updates that row in place via `mheardUpdateF` (rssi, snr, timestamp,
raw_json) and inserts nothing — the table length is unchanged; and (b) for
every message, if MHeard-shaped rows of equal source are pairwise at least
2 minutes apart and the incoming timestamp is not older than any stored
row, that invariant is preserved — hence at most one MHeard row per source
callsign per 2-minute window (MHeard beacon `src` is the bare callsign). -/
theorem C4_mheard_update_in_place (m : Msg) (raw : String) (now : Int)
    (tbl : List Row) (i : Nat) (r : Row) :
    (should_filter_message m = false →
      msgIdFalsy m.msg_id = true → m.src_type = "ble" → m.typ = "pos" →
      pyContains m.msg ":ack" = false →
      selectLatest (mheardPred m.src (m.timestamp.getD now)) tbl = some (i, r) →
      store_message m raw now tbl
          = modifyAt tbl i (mheardUpdateF m raw (m.timestamp.getD now))
        ∧ (store_message m raw now tbl).length = tbl.length)
    ∧ (MheardInv tbl →
        (∀ (k : Nat) (rk : Row), tbl[k]? = some rk →
          rk.timestamp ≤ m.timestamp.getD now) →
        MheardInv (store_message m raw now tbl)) := by
  constructor
  · intro hfil hm1 hm2 hm3 hnoack hsel
    have htele : m.typ ≠ "tele" := by rw [hm3]; decide
    have hackt : m.typ ≠ "ack" := by rw [hm3]; decide
    rw [store_message_main m raw now tbl hfil htele hackt]
    rw [ackStep_no_ack m.msg tbl hnoack]
    rw [if_pos (by simp [hm1, hm2, hm3])]
    simp only [hsel]
    exact ⟨by trivial, modifyAt_length tbl i _⟩
  · intro hinv hmono
    by_cases hfil : should_filter_message m = true
    · rw [store_message_filtered m raw now tbl hfil]; exact hinv
    · have hfil' : should_filter_message m = false := by
        cases hf : should_filter_message m
        · rfl
        · exact absurd hf hfil
      by_cases htele : m.typ = "tele"
      · rw [store_message_tele m raw now tbl hfil' htele]; exact hinv
      · by_cases hackt : m.typ = "ack"
        · rw [store_message_ack m raw now tbl hfil' hackt]
          cases m.ack_id with
          | none => exact hinv
          | some aid =>
              exact MheardInv_transfer tbl _ (fun k =>
                updateSendSuccess_map_proj mhProj (fun r => rfl) tbl aid k) hinv
        · rw [store_message_main m raw now tbl hfil' htele hackt]
          have htr1 := fun k => ackStep_map_proj mhProj (fun r => rfl) m.msg tbl k
          have hinv1 : MheardInv (ackStep m.msg tbl) :=
            MheardInv_transfer tbl _ htr1 hinv
          have hmono1 : ∀ (k : Nat) (rk : Row), (ackStep m.msg tbl)[k]? = some rk →
              rk.timestamp ≤ m.timestamp.getD now := by
            intro k rk hk
            obtain ⟨sk, hsk, hpk⟩ :=
              map_proj_resolve mhProj tbl (ackStep m.msg tbl) htr1 k rk hk
            have hts : sk.timestamp = rk.timestamp :=
              congrArg (fun p => p.2.2.2.2) hpk
            rw [← hts]
            exact hmono k sk hsk
          have hnewts : (newRowOf m raw now).timestamp = m.timestamp.getD now := rfl
          have hnewsrc : (newRowOf m raw now).src = m.src := rfl
          have hnewst : (newRowOf m raw now).src_type = m.src_type := rfl
          have hnewty : (newRowOf m raw now).typ = m.typ := rfl
          have hnewmid : (newRowOf m raw now).msg_id = m.msg_id := rfl
          by_cases hmh : (msgIdFalsy m.msg_id && m.src_type = "ble"
              && m.typ = "pos") = true
          · rw [if_pos hmh]
            cases hsel : selectLatest (mheardPred m.src (m.timestamp.getD now))
                (ackStep m.msg tbl) with
            | some ir =>
                obtain ⟨i', r'⟩ := ir
                simp only [hsel]
                obtain ⟨hmem, hpred⟩ := selectLatest_some _ _ i' r' hsel
                simp only [mheardPred, Bool.and_eq_true, decide_eq_true_eq] at hpred
                obtain ⟨⟨⟨⟨hps, hpst⟩, hpty⟩, hpmid⟩, hpwin⟩ := hpred
                have hfts : (mheardUpdateF m raw (m.timestamp.getD now) r').timestamp
                    = m.timestamp.getD now := rfl
                have hfsrc : (mheardUpdateF m raw (m.timestamp.getD now) r').src
                    = r'.src := rfl
                intro i1 j1 ri rj hij hi hj hsrc1 hst1 hty1 hmid1 hst2 hty2 hmid2
                have hchar : ∀ (k : Nat) (rk : Row),
                    (modifyAt (ackStep m.msg tbl) i'
                        (mheardUpdateF m raw (m.timestamp.getD now)))[k]? = some rk →
                    (k ≠ i' ∧ (ackStep m.msg tbl)[k]? = some rk)
                      ∨ (k = i' ∧ rk = mheardUpdateF m raw (m.timestamp.getD now) r') := by
                  intro k rk hk
                  by_cases hki : k = i'
                  · right
                    refine ⟨hki, ?_⟩
                    rw [modifyAt_getElem?, if_pos hki, hki, hmem] at hk
                    exact (Option.some.inj hk).symm
                  · left
                    refine ⟨hki, ?_⟩
                    rw [modifyAt_getElem?, if_neg hki] at hk
                    exact hk
                rcases hchar i1 ri hi with ⟨hne1, hi1⟩ | ⟨heq1, hri⟩
                · rcases hchar j1 rj hj with ⟨hne2, hj1⟩ | ⟨heq2, hrj⟩
                  · exact hinv1 i1 j1 ri rj hij hi1 hj1 hsrc1 hst1 hty1 hmid1
                      hst2 hty2 hmid2
                  · have hsrc2 : ri.src = r'.src := by rw [hsrc1, hrj, hfsrc]
                    by_cases hwin : m.timestamp.getD now - MHEARD_THROTTLE_MS
                        < ri.timestamp
                    · exfalso
                      have hgap := hinv1 i1 i' ri r' hne1 hi1 hmem hsrc2
                        hst1 hty1 hmid1 hpst hpty hpmid
                      have hm1' := hmono1 i1 ri hi1
                      have hm2' := hmono1 i' r' hmem
                      rcases hgap with hg | hg <;> linarith
                    · right
                      have hle : ri.timestamp
                          ≤ m.timestamp.getD now - MHEARD_THROTTLE_MS :=
                        le_of_not_lt hwin
                      have hrjts : rj.timestamp = m.timestamp.getD now := by
                        rw [hrj, hfts]
                      linarith
                · rcases hchar j1 rj hj with ⟨hne2, hj1⟩ | ⟨heq2, hrj⟩
                  · have hsrc2 : rj.src = r'.src := by rw [← hsrc1, hri, hfsrc]
                    by_cases hwin : m.timestamp.getD now - MHEARD_THROTTLE_MS
                        < rj.timestamp
                    · exfalso
                      have hgap := hinv1 j1 i' rj r' hne2 hj1 hmem hsrc2
                        hst2 hty2 hmid2 hpst hpty hpmid
                      have hm1' := hmono1 j1 rj hj1
                      have hm2' := hmono1 i' r' hmem
                      rcases hgap with hg | hg <;> linarith
                    · left
                      have hle : rj.timestamp
                          ≤ m.timestamp.getD now - MHEARD_THROTTLE_MS :=
                        le_of_not_lt hwin
                      have hrits : ri.timestamp = m.timestamp.getD now := by
                        rw [hri, hfts]
                      linarith
                  · exact absurd (heq1.trans heq2.symm) hij
            | none =>
                simp only [hsel]
                have hall := selectLatest_none
                  (mheardPred m.src (m.timestamp.getD now)) (ackStep m.msg tbl) hsel
                cases hmsg : m.msg_id with
                | none =>
                    show MheardInv (ackStep m.msg tbl ++ [newRowOf m raw now])
                    apply MheardInv_append _ _ hinv1
                    intro hbst hbty hbmid k rr hk hsrcr hstr htyr hmidr
                    have hsrcm : rr.src = m.src := by rw [hsrcr, hnewsrc]
                    have hwinf : ¬ (m.timestamp.getD now - MHEARD_THROTTLE_MS
                        < rr.timestamp) := by
                      intro hc
                      have hp : mheardPred m.src (m.timestamp.getD now) rr = true := by
                        simp only [mheardPred, Bool.and_eq_true, decide_eq_true_eq]
                        exact ⟨⟨⟨⟨hsrcm, hstr⟩, htyr⟩, hmidr⟩, hc⟩
                      rw [hall k rr hk] at hp
                      exact Bool.noConfusion hp
                    rw [hnewts]
                    linarith [le_of_not_lt hwinf]
                | some mid' =>
                    show MheardInv (if (ackStep m.msg tbl).any
                        (dedupPred mid' (m.timestamp.getD now)) then ackStep m.msg tbl
                      else ackStep m.msg tbl ++ [newRowOf m raw now])
                    cases hany : (ackStep m.msg tbl).any
                        (dedupPred mid' (m.timestamp.getD now)) with
                    | true =>
                        rw [if_pos rfl]
                        exact hinv1
                    | false =>
                        rw [if_neg (by simp)]
                        apply MheardInv_append _ _ hinv1
                        intro hbst hbty hbmid
                        rw [hnewmid, hmsg] at hbmid
                        exact absurd hbmid (fun hc => Option.noConfusion hc)
          · rw [if_neg hmh]
            cases hmsg : m.msg_id with
            | none =>
                show MheardInv (ackStep m.msg tbl ++ [newRowOf m raw now])
                apply MheardInv_append _ _ hinv1
                intro hbst hbty hbmid
                exfalso
                apply hmh
                rw [hnewst] at hbst
                rw [hnewty] at hbty
                rw [hnewmid, hmsg] at hbmid
                simp [hbst, hbty, msgIdFalsy, hmsg]
            | some mid' =>
                show MheardInv (if (ackStep m.msg tbl).any
                    (dedupPred mid' (m.timestamp.getD now)) then ackStep m.msg tbl
                  else ackStep m.msg tbl ++ [newRowOf m raw now])
                cases hany : (ackStep m.msg tbl).any
                    (dedupPred mid' (m.timestamp.getD now)) with
                | true =>
                    rw [if_pos rfl]
                    exact hinv1
                | false =>
                    rw [if_neg (by simp)]
                    apply MheardInv_append _ _ hinv1
                    intro hbst hbty hbmid
                    rw [hnewmid, hmsg] at hbmid
                    exact absurd hbmid (fun hc => Option.noConfusion hc)

/-- C4 witness: the second beacon, 60 s after the first, is folded into the
stored row in place — one row before, one row after. -/
theorem C4_mheard_update_in_place_witness :
    c4Res = modifyAt c4Tbl 0
        (mheardUpdateF (c4Beacon 60000 (some (-70)) (some 6)) "raw1" 60000)
      ∧ c4Res.length = c4Tbl.length :=
  (C4_mheard_update_in_place (c4Beacon 60000 (some (-70)) (some 6)) "raw1" 0 c4Tbl
    0 (newRowOf (c4Beacon 0 (some (-80)) (some 5)) "raw0" 0)).1
    (by decide) (by decide) (by decide) (by decide) (by decide) (by decide)

/-- C9 counterexample: an existing telemetry row with real sensor data
(temp1 = 5) but zero pressure is deleted and replaced when a
pressure-only reading arrives within 60 s — the code decides "which record
has real data" solely by the `qfe` field, so a record whose real data lives
in another sensor loses, contrary to "the record with non-zero sensor
values wins". -/
theorem C9_counterexample_qfe_only_dedup :
    c9Tbl.length = 1
      ∧ (c9Tbl[0]?).map (fun r => r.temp1) = some (some 5)
      ∧ c9Res.length = 1
      ∧ (c9Res[0]?).map (fun r => r.temp1) = some none
      ∧ (c9Res[0]?).map (fun r => r.qfe) = some (some 1000) :=
  ⟨by decide, by decide, by decide, by decide, by decide⟩

/-- C9 (amended): all-zero readings are dropped entirely, and the 60-second
dedup is decided by the `qfe` (pressure) field alone.  With no recent row
the record is appended; with a recent first row `r0`, the table is left
unchanged (incoming discarded) exactly when `r0` has non-zero qfe and the
incoming qfe is zero or absent; the recent rows are deleted and the
incoming record inserted exactly when `r0` has zero/absent qfe and the
incoming qfe is non-zero; in every remaining case (both non-zero or both
zero/absent) the incoming record is appended alongside. -/
theorem C9_store_telemetry_qfe_dedup (callsign : String) (d : TelemetryData)
    (now : Int) (tbl : List TelRow) (posAlt : Option Rat) :
    (allSensorsZero d = true →
      store_telemetry callsign d now tbl posAlt = tbl)
    ∧ (callsign ≠ "" → allSensorsZero d = false →
        tbl.filter (telRecentPred callsign (d.timestamp.getD now)) = [] →
        store_telemetry callsign d now tbl posAlt
          = tbl ++ [newTelRowOf callsign d now posAlt])
    ∧ (∀ (r0 : TelRow) (rest : List TelRow), callsign ≠ "" →
        allSensorsZero d = false →
        tbl.filter (telRecentPred callsign (d.timestamp.getD now)) = r0 :: rest →
        (store_telemetry callsign d now tbl posAlt = tbl
          ↔ (r0.qfe.getD 0 ≠ 0 ∧ sensorZero d.qfe = true))
        ∧ (store_telemetry callsign d now tbl posAlt
            = (tbl.filter
                (fun r => ¬ telRecentPred callsign (d.timestamp.getD now) r))
              ++ [newTelRowOf callsign d now posAlt]
          ↔ (r0.qfe.getD 0 = 0 ∧ sensorZero d.qfe = false))
        ∧ (¬ (r0.qfe.getD 0 ≠ 0 ∧ sensorZero d.qfe = true) →
           ¬ (r0.qfe.getD 0 = 0 ∧ sensorZero d.qfe = false) →
           store_telemetry callsign d now tbl posAlt
             = tbl ++ [newTelRowOf callsign d now posAlt])) := by
  refine ⟨?_, ?_, ?_⟩
  · intro hz
    by_cases hcs : callsign = ""
    · simp [store_telemetry, hcs]
    · simp [store_telemetry, hcs, hz]
  · intro hcs hz hrec
    simp only [store_telemetry, if_neg hcs, hz, Bool.false_eq_true, if_false, hrec]
  · intro r0 rest hcs hz hrec
    have hnew := telRecent_new callsign d now posAlt
    by_cases hq1 : r0.qfe.getD 0 = 0 <;> by_cases hq2 : sensorZero d.qfe = true
    · -- recent qfe zero, incoming qfe zero: append alongside
      have hstore : store_telemetry callsign d now tbl posAlt
          = tbl ++ [newTelRowOf callsign d now posAlt] := by
        simp only [store_telemetry, if_neg hcs, hz, Bool.false_eq_true, if_false, hrec]
        rw [if_neg (by simp [hq1]), if_neg (by simp [hq2])]
      rw [hstore]
      refine ⟨⟨fun hx => absurd hx (append_single_ne_self tbl _),
          fun hx => absurd hq1 hx.1⟩,
        ⟨fun hx => append_ne_replace _ tbl r0 rest _ hrec hnew hx |>.elim,
          fun hx => absurd hq2 (by simp [hx.2])⟩,
        fun _ _ => rfl⟩
    · -- recent qfe zero, incoming qfe non-zero: delete and replace
      have hq2' : sensorZero d.qfe = false := by
        cases hb : sensorZero d.qfe
        · rfl
        · exact absurd hb hq2
      have hstore : store_telemetry callsign d now tbl posAlt
          = (tbl.filter
              (fun r => ¬ telRecentPred callsign (d.timestamp.getD now) r))
            ++ [newTelRowOf callsign d now posAlt] := by
        simp only [store_telemetry, if_neg hcs, hz, Bool.false_eq_true, if_false, hrec]
        rw [if_neg (by simp [hq1]), if_pos (by simp [hq1, hq2'])]
      rw [hstore]
      refine ⟨⟨?_, fun hx => absurd hq1 hx.1⟩,
        ⟨fun _ => ⟨hq1, hq2'⟩, fun _ => rfl⟩,
        fun _ hx => absurd ⟨hq1, hq2'⟩ hx⟩
      intro hx
      have hr0 := replace_eq_self_pins_r0 _ tbl r0 rest _ hrec hnew hx
      have : r0.qfe.getD 0 ≠ 0 := by
        rw [hr0]
        exact sensorZero_getD_ne d.qfe hq2'
      exact absurd hq1 this
    · -- recent qfe non-zero, incoming qfe zero: discard
      have hstore : store_telemetry callsign d now tbl posAlt = tbl := by
        simp only [store_telemetry, if_neg hcs, hz, Bool.false_eq_true, if_false, hrec]
        rw [if_pos (by simp [hq1, hq2])]
      rw [hstore]
      refine ⟨⟨fun _ => ⟨hq1, hq2⟩, fun _ => rfl⟩,
        ⟨?_, fun hx => absurd hx.1 hq1⟩,
        fun hx _ => absurd ⟨hq1, hq2⟩ hx⟩
      intro hx
      have hr0 := replace_eq_self_pins_r0 _ tbl r0 rest _ hrec hnew hx.symm
      have : r0.qfe.getD 0 = 0 := by
        rw [hr0]
        exact sensorZero_getD_eq d.qfe hq2
      exact absurd this hq1
    · -- recent qfe non-zero, incoming qfe non-zero: append alongside
      have hq2' : sensorZero d.qfe = false := by
        cases hb : sensorZero d.qfe
        · rfl
        · exact absurd hb hq2
      have hstore : store_telemetry callsign d now tbl posAlt
          = tbl ++ [newTelRowOf callsign d now posAlt] := by
        simp only [store_telemetry, if_neg hcs, hz, Bool.false_eq_true, if_false, hrec]
        rw [if_neg (by simp [hq2']), if_neg (by simp [hq1])]
      rw [hstore]
      refine ⟨⟨fun hx => absurd hx (append_single_ne_self tbl _),
          fun hx => absurd hq2 (by simp [hx.2])⟩,
        ⟨fun hx => append_ne_replace _ tbl r0 rest _ hrec hnew hx |>.elim,
          fun hx => absurd hx.1 hq1⟩,
        fun _ _ => rfl⟩

/-- C9 witness: the concrete pressure-only reading falls into the
delete-and-replace branch of the amended dedup rules, by the replace
clause's backward-usable characterisation. -/
theorem C9_store_telemetry_qfe_dedup_witness :
    c9Res = (c9Tbl.filter (fun r => ¬ telRecentPred "OE5HWN-12" 30000 r))
        ++ [newTelRowOf "OE5HWN-12" c9Second 0 none] :=
  (((C9_store_telemetry_qfe_dedup "OE5HWN-12" c9Second 0 c9Tbl none).2.2
    (newTelRowOf "OE5HWN-12" c9First 0 none) [] (by decide) (by decide)
    (by decide)).2.1).mpr ⟨by decide, by decide⟩

/-- C5 counterexample: for an empty destination — which is neither all
digits, nor `TEST`, nor `*`, hence a "direct message" under the claim's
case split — the code returns no conversation key at all instead of the
sorted base-callsign join, and the claimed symmetry fails concretely:
swapping `("", "DK5EN")` changes the result. -/
theorem C5_counterexample_empty_dst :
    Storage.compute_conversation_key "DK5EN" "" = none
      ∧ Storage.compute_conversation_key "" "DK5EN" = some "<>DK5EN"
      ∧ Storage.isGroupDst "" = false ∧ Storage.isGroupDst "DK5EN" = false :=
  ⟨by decide, by decide, by decide, by decide⟩

/-- C5 (amended): for a nonempty destination the conversation key equals
the destination when it is all digits, `TEST`, or `*`; otherwise it is the
two base callsigns (parts before the first `-`) sorted lexicographically
and joined with `<>`; and for nonempty non-group endpoints the key is
symmetric.  (For an empty destination the key is `none`.) -/
theorem C5_conversation_key (src dst : String) :
    (dst ≠ "" → pyIsDigit dst = true → Storage.compute_conversation_key src dst = some dst)
    ∧ Storage.compute_conversation_key src "TEST" = some "TEST"
    ∧ Storage.compute_conversation_key src "*" = some "*"
    ∧ (dst ≠ "" → Storage.isGroupDst dst = false →
        Storage.compute_conversation_key src dst =
          some (if lexLt (Storage.baseCallsign dst).data (Storage.baseCallsign src).data
            then Storage.baseCallsign dst ++ "<>" ++ Storage.baseCallsign src
            else Storage.baseCallsign src ++ "<>" ++ Storage.baseCallsign dst))
    ∧ (∀ a b : String, a ≠ "" → b ≠ "" →
        Storage.isGroupDst a = false → Storage.isGroupDst b = false →
        Storage.compute_conversation_key a b = Storage.compute_conversation_key b a) := by
  refine ⟨?_, ?_, ?_, ?_, ?_⟩
  · intro h hd; simp [Storage.compute_conversation_key, h, hd]
  · simp [Storage.compute_conversation_key, pyIsDigit]
  · simp [Storage.compute_conversation_key, pyIsDigit, isDigitCh]
  · intro h hg
    simp only [Storage.isGroupDst, Bool.or_eq_false_iff, decide_eq_false_iff_not] at hg
    obtain ⟨⟨hd, ht⟩, hs⟩ := hg
    simp [Storage.compute_conversation_key, h, hd, ht, hs, apply_ite]
    split <;> intro hx <;> simp_all
  · intro a b ha hb hga hgb
    simp only [Storage.isGroupDst, Bool.or_eq_false_iff, decide_eq_false_iff_not] at hga hgb
    obtain ⟨⟨hda, hta⟩, hsa⟩ := hga
    obtain ⟨⟨hdb, htb⟩, hsb⟩ := hgb
    simp only [Storage.compute_conversation_key, ha, hb, hda, hdb, hta, htb, hsa, hsb,
      if_false, Bool.false_or, if_neg]
    set x := Storage.baseCallsign a
    set y := Storage.baseCallsign b
    rcases hxy : lexLt y.data x.data with _ | _
    · rcases hyx : lexLt x.data y.data with _ | _
      · have hdata : x.data = y.data := Storage.lexLt_connex x.data y.data hyx hxy
        have hxy' : x = y := congrArg String.mk hdata
        simp [hxy']
      · simp
    · have := Storage.lexLt_asymm y.data x.data hxy
      simp [this]

/-- C5 witness: concrete application of the amended key rules — the DM key
for `DK5EN-1` and `OE5HWN-12` is the same in both directions. -/
theorem C5_conversation_key_witness :
    Storage.compute_conversation_key "DK5EN-1" "OE5HWN-12" =
      Storage.compute_conversation_key "OE5HWN-12" "DK5EN-1" :=
  (C5_conversation_key "DK5EN-1" "OE5HWN-12").2.2.2.2 "DK5EN-1" "OE5HWN-12"
    (by decide) (by decide) (by decide) (by decide)

open McProxy in
/-- C7: from a clean abuse-protection state, three failed (exception-raising)
command attempts from the same source within the 5-minute window block the
source at the time of the third failure; for any two further commands while
the 25-minute block lasts, neither is executed, the first receives exactly
the single courtesy timeout reply, and the second receives no reply at all. -/
theorem C7_abuse_block (src : String) (t1 t2 t3 t4 t5 : Rat)
    (st0 : DedupState)
    (h0a : st0.failed_attempts src = [])
    (h0b : st0.blocked_users src = none)
    (h0c : st0.block_notifications_sent src = false)
    (h12 : t1 ≤ t2) (h23 : t2 ≤ t3)
    (hwin : t3 - t1 < failed_attempt_window)
    (h34 : t3 ≤ t4) (h45 : t4 ≤ t5)
    (h5 : t5 ≤ t3 + block_duration) :
    (raise3 src t1 t2 t3 st0).blocked_users src = some t3
    ∧ ∀ o4 o5 : ExecOutcome,
        (handleCommandAbuse src t4 o4 (raise3 src t1 t2 t3 st0)).2
          = (false, some timeoutReply)
        ∧ (handleCommandAbuse src t5 o5
            (handleCommandAbuse src t4 o4 (raise3 src t1 t2 t3 st0)).1).2
          = (false, none) := by
  have hW : (0:Rat) < failed_attempt_window := by
    norm_num [failed_attempt_window, DEFAULT_THROTTLE_TIMEOUT]
  have hp11 : t1 > t1 - failed_attempt_window := by linarith
  have hp12 : t1 > t2 - failed_attempt_window := by linarith
  have hp22 : t2 > t2 - failed_attempt_window := by linarith
  have hp13 : t1 > t3 - failed_attempt_window := by linarith
  have hp23 : t2 > t3 - failed_attempt_window := by linarith
  have hp33 : t3 > t3 - failed_attempt_window := by linarith
  have hnb4 : ¬ t3 < t4 - block_duration := by
    simp only [not_lt]; linarith
  have hnb5 : ¬ t3 < t5 - block_duration := by
    simp only [not_lt]; linarith
  have hc1 : (cleanup_blocked_users t1 st0).blocked_users src = none := by
    simp only [cleanup_blocked_read, h0b]
  have hR1 := handle_raises_unblocked src t1 st0 hc1
  have hS1 : (handleCommandAbuse src t1 ExecOutcome.raises st0).1
      = track_failed_attempt src t1 (cleanup_blocked_users t1 st0) := by
    rw [hR1]
  have hf1 : (track_failed_attempt src t1
      (cleanup_blocked_users t1 st0)).failed_attempts src = [t1] := by
    rw [track_failed_read, cleanup_failed_read, h0a]
    simp [hp11]
  have hb1 : (track_failed_attempt src t1
      (cleanup_blocked_users t1 st0)).blocked_users src = none := by
    rw [track_blocked_read, cleanup_failed_read, h0a,
      if_neg (by simp [hp11, max_failed_attempts])]
    exact hc1
  have hn1 : (track_failed_attempt src t1
      (cleanup_blocked_users t1 st0)).block_notifications_sent src = false := by
    rw [track_notif_read]
    exact cleanup_notif_read t1 st0 src h0c
  have hc2 : (cleanup_blocked_users t2 (track_failed_attempt src t1
      (cleanup_blocked_users t1 st0))).blocked_users src = none := by
    simp only [cleanup_blocked_read, hb1]
  have hR2 := handle_raises_unblocked src t2
    (track_failed_attempt src t1 (cleanup_blocked_users t1 st0)) hc2
  have hS2 : (handleCommandAbuse src t2 ExecOutcome.raises
      (track_failed_attempt src t1 (cleanup_blocked_users t1 st0))).1
      = track_failed_attempt src t2 (cleanup_blocked_users t2
          (track_failed_attempt src t1 (cleanup_blocked_users t1 st0))) := by
    rw [hR2]
  have hf2 : (track_failed_attempt src t2 (cleanup_blocked_users t2
      (track_failed_attempt src t1
        (cleanup_blocked_users t1 st0)))).failed_attempts src = [t1, t2] := by
    rw [track_failed_read, cleanup_failed_read, hf1]
    simp [hp12, hp22]
  have hb2 : (track_failed_attempt src t2 (cleanup_blocked_users t2
      (track_failed_attempt src t1
        (cleanup_blocked_users t1 st0)))).blocked_users src = none := by
    rw [track_blocked_read, cleanup_failed_read, hf1,
      if_neg (by simp [hp12, hp22, max_failed_attempts])]
    exact hc2
  have hn2 : (track_failed_attempt src t2 (cleanup_blocked_users t2
      (track_failed_attempt src t1
        (cleanup_blocked_users t1 st0)))).block_notifications_sent src = false := by
    rw [track_notif_read]
    exact cleanup_notif_read t2 _ src hn1
  have hc3 : (cleanup_blocked_users t3 (track_failed_attempt src t2
      (cleanup_blocked_users t2 (track_failed_attempt src t1
        (cleanup_blocked_users t1 st0))))).blocked_users src = none := by
    simp only [cleanup_blocked_read, hb2]
  have hR3 := handle_raises_unblocked src t3
    (track_failed_attempt src t2 (cleanup_blocked_users t2
      (track_failed_attempt src t1 (cleanup_blocked_users t1 st0)))) hc3
  have hS3 : (handleCommandAbuse src t3 ExecOutcome.raises
      (track_failed_attempt src t2 (cleanup_blocked_users t2
        (track_failed_attempt src t1 (cleanup_blocked_users t1 st0))))).1
      = track_failed_attempt src t3 (cleanup_blocked_users t3
          (track_failed_attempt src t2 (cleanup_blocked_users t2
            (track_failed_attempt src t1 (cleanup_blocked_users t1 st0))))) := by
    rw [hR3]
  have hb3 : (track_failed_attempt src t3 (cleanup_blocked_users t3
      (track_failed_attempt src t2 (cleanup_blocked_users t2
        (track_failed_attempt src t1
          (cleanup_blocked_users t1 st0)))))).blocked_users src = some t3 := by
    rw [track_blocked_read, cleanup_failed_read, hf2,
      if_pos (by simp [hp13, hp23, hp33, max_failed_attempts])]
  have hn3 : (track_failed_attempt src t3 (cleanup_blocked_users t3
      (track_failed_attempt src t2 (cleanup_blocked_users t2
        (track_failed_attempt src t1
          (cleanup_blocked_users t1 st0)))))).block_notifications_sent src = false := by
    rw [track_notif_read]
    exact cleanup_notif_read t3 _ src hn2
  have hT3 : raise3 src t1 t2 t3 st0
      = track_failed_attempt src t3 (cleanup_blocked_users t3
          (track_failed_attempt src t2 (cleanup_blocked_users t2
            (track_failed_attempt src t1 (cleanup_blocked_users t1 st0))))) := by
    simp only [raise3]
    rw [hS1, hS2, hS3]
  have hc4 : (cleanup_blocked_users t4 (track_failed_attempt src t3
      (cleanup_blocked_users t3 (track_failed_attempt src t2
        (cleanup_blocked_users t2 (track_failed_attempt src t1
          (cleanup_blocked_users t1 st0))))))).blocked_users src = some t3 := by
    simp only [cleanup_blocked_read, hb3]
    rw [if_neg hnb4]
  have hc4s : ((cleanup_blocked_users t4 (track_failed_attempt src t3
      (cleanup_blocked_users t3 (track_failed_attempt src t2
        (cleanup_blocked_users t2 (track_failed_attempt src t1
          (cleanup_blocked_users t1 st0))))))).blocked_users src).isSome = true := by
    rw [hc4]; rfl
  have hn4 : (cleanup_blocked_users t4 (track_failed_attempt src t3
      (cleanup_blocked_users t3 (track_failed_attempt src t2
        (cleanup_blocked_users t2 (track_failed_attempt src t1
          (cleanup_blocked_users t1 st0))))))).block_notifications_sent src = false :=
    cleanup_notif_read t4 _ src hn3
  refine ⟨by rw [hT3]; exact hb3, ?_⟩
  intro o4 o5
  rw [hT3]
  have hB4 := handle_blocked_first src t4 o4
    (track_failed_attempt src t3 (cleanup_blocked_users t3
      (track_failed_attempt src t2 (cleanup_blocked_users t2
        (track_failed_attempt src t1 (cleanup_blocked_users t1 st0)))))) hc4s hn4
  refine ⟨hB4.1, ?_⟩
  have hb4 : (handleCommandAbuse src t4 o4 (track_failed_attempt src t3
      (cleanup_blocked_users t3 (track_failed_attempt src t2
        (cleanup_blocked_users t2 (track_failed_attempt src t1
          (cleanup_blocked_users t1 st0))))))).1.blocked_users src = some t3 := by
    rw [hB4.2.1]; exact hc4
  have hc5 : (cleanup_blocked_users t5 (handleCommandAbuse src t4 o4
      (track_failed_attempt src t3 (cleanup_blocked_users t3
        (track_failed_attempt src t2 (cleanup_blocked_users t2
          (track_failed_attempt src t1
            (cleanup_blocked_users t1 st0))))))).1).blocked_users src = some t3 := by
    simp only [cleanup_blocked_read, hb4]
    rw [if_neg hnb5]
  have hc5s : ((cleanup_blocked_users t5 (handleCommandAbuse src t4 o4
      (track_failed_attempt src t3 (cleanup_blocked_users t3
        (track_failed_attempt src t2 (cleanup_blocked_users t2
          (track_failed_attempt src t1
            (cleanup_blocked_users t1 st0))))))).1).blocked_users src).isSome = true := by
    rw [hc5]; rfl
  have hn5 : (cleanup_blocked_users t5 (handleCommandAbuse src t4 o4
      (track_failed_attempt src t3 (cleanup_blocked_users t3
        (track_failed_attempt src t2 (cleanup_blocked_users t2
          (track_failed_attempt src t1
            (cleanup_blocked_users t1 st0))))))).1).block_notifications_sent src = true :=
    cleanup_notif_read_true t5 _ src t3 hb4 hB4.2.2 hnb5
  have hB5 := handle_blocked_second src t5 o5
    (handleCommandAbuse src t4 o4 (track_failed_attempt src t3
      (cleanup_blocked_users t3 (track_failed_attempt src t2
        (cleanup_blocked_users t2 (track_failed_attempt src t1
          (cleanup_blocked_users t1 st0))))))).1 hc5s hn5
  rw [hB5]

/-- C7 witness: a source with three raising commands at times 0, 100 and 200
seconds is blocked at 200; the command at 300 gets the courtesy reply
without execution, the one at 1000 gets nothing. -/
theorem C7_abuse_block_witness :
    (McProxy.raise3 "OE1ABC" 0 100 200 McProxy.initDedupState).blocked_users "OE1ABC"
        = some 200
    ∧ (McProxy.handleCommandAbuse "OE1ABC" 300 (McProxy.ExecOutcome.ok "hello")
        (McProxy.raise3 "OE1ABC" 0 100 200 McProxy.initDedupState)).2
        = (false, some McProxy.timeoutReply)
    ∧ (McProxy.handleCommandAbuse "OE1ABC" 1000 (McProxy.ExecOutcome.ok "hello")
        (McProxy.handleCommandAbuse "OE1ABC" 300 (McProxy.ExecOutcome.ok "hello")
          (McProxy.raise3 "OE1ABC" 0 100 200 McProxy.initDedupState)).1).2
        = (false, none) := by
  have h := C7_abuse_block "OE1ABC" 0 100 200 300 1000 McProxy.initDedupState
    rfl rfl rfl (by decide) (by decide)
    (by simp only [McProxy.failed_attempt_window, McProxy.DEFAULT_THROTTLE_TIMEOUT]; norm_num)
    (by decide) (by decide)
    (by simp only [McProxy.block_duration, McProxy.DEFAULT_THROTTLE_TIMEOUT]; norm_num)
  exact ⟨h.1, (h.2 (McProxy.ExecOutcome.ok "hello") (McProxy.ExecOutcome.ok "hello")).1,
    (h.2 (McProxy.ExecOutcome.ok "hello") (McProxy.ExecOutcome.ok "hello")).2⟩

set_option maxRecDepth 16000 in
/-- C8 counterexample: a 150-character ASCII response falls through to the
character-wise splitter, and the first emitted chunk — the `(1/2) ` header
plus 140 characters of payload — is 146 UTF-8 bytes, exceeding the claimed
140-byte bound. -/
theorem C8_counterexample_oversized_prefixed_chunk :
    (McProxy.send_response (String.mk (List.replicate 150 'A'))).head?
        = some (McProxy.SendEvent.send
            ("(1/2) " ++ String.mk (List.replicate 140 'A')))
    ∧ utf8ByteLen ("(1/2) " ++ String.mk (List.replicate 140 'A')) = 146
    ∧ McProxy.MAX_RESPONSE_LENGTH
        < utf8ByteLen ("(1/2) " ++ String.mk (List.replicate 140 'A')) := by
  refine ⟨by decide, by decide, by decide⟩

open McProxy in
/-- C8 (amended): for every nonempty response, `send_response` emits at most
`MAX_CHUNKS = 3` chunk transmissions; a response of at most 140 UTF-8 bytes
is sent as a single unprefixed chunk; when the response splits into more
than one chunk, the transmitted payloads are exactly the chunks prefixed
with their `(i/N) ` headers; a 12-second delay is inserted between
consecutive chunks (one fewer delay than sends, every delay 12 seconds).
The 140-byte bound does not extend to multi-chunk sends: the header is
added after the size check, and the comma-split and character-wise paths
do not re-check byte length. -/
theorem C8_send_response_chunks (r : String) (h : r ≠ "") :
    countSends (send_response r) ≤ MAX_CHUNKS
    ∧ (utf8ByteLen r ≤ MAX_RESPONSE_LENGTH →
        send_response r = [SendEvent.send r])
    ∧ sendsOf (send_response r)
        = (if 1 < (chunk_response r).length
            then prefixChunks (chunk_response r).length 0 (chunk_response r)
            else chunk_response r)
    ∧ countDelays (send_response r) = countSends (send_response r) - 1
    ∧ (∀ e ∈ send_response r,
        e = SendEvent.delay 12 ∨ SendEvent.isSend e = true) := by
  have hsr : send_response r
      = sendEventsGo (chunk_response r).length 0
          ((chunk_response r).take MAX_CHUNKS) := by
    unfold send_response
    rw [if_neg h]
  have htake : (chunk_response r).take MAX_CHUNKS = chunk_response r :=
    take_all_of_len_le (chunk_response r) MAX_CHUNKS (chunk_response_length_le r)
  refine ⟨?_, ?_, ?_, ?_, ?_⟩
  · rw [hsr, htake, countSends_sendEventsGo]
    exact chunk_response_length_le r
  · intro hfit
    have hcr : chunk_response r = [r] := by
      unfold chunk_response
      rw [if_pos hfit]
    rw [hsr, hcr]
    simp [sendEventsGo, MAX_CHUNKS, List.take]
  · rw [hsr, htake, sendsOf_sendEventsGo]
  · rw [hsr, htake, countDelays_sendEventsGo _ _ 0 (by simp),
      countSends_sendEventsGo]
  · rw [hsr, htake]
    exact fun e he => sendEventsGo_mem _ _ 0 e he

/-- C8 witness: a short response is sent as one unprefixed chunk. -/
theorem C8_send_response_chunks_witness :
    McProxy.send_response "PONG" = [McProxy.SendEvent.send "PONG"] := by
  have h := C8_send_response_chunks "PONG" (by decide)
  exact h.2.1 (by decide)

/-- C10 counterexample: a fully in-range request (valid target callsign,
payload 25, repeat 1) toward a callsign in `blocked_callsigns` starts no
test — `handle_ctcping` returns the blocked-target error, a check the
claim omits. -/
theorem C10_counterexample_blocked_target :
    Ctcping.handle_ctcping "DK5EN" ["OE1ABC"] "oe1abc"
        (Ctcping.PyVal.vint 25) (Ctcping.PyVal.vint 1)
      = Ctcping.CtcpingResult.err "❌ Target OE1ABC is blocked"
    ∧ Ctcping.ctcpingCallPattern "OE1ABC" = true
    ∧ pyUpper "oe1abc" ≠ "DK5EN" := by
  refine ⟨by decide, by decide, by decide⟩

open Ctcping in
/-- C10 (amended): `handle_ctcping` starts a test only for validated
input.  A test is started only when the uppercased target is nonempty,
matches the callsign pattern, differs from my callsign, is NOT in
`blocked_callsigns`, and the payload and repeat arguments are ints in
25..140 and 1..5; conversely, every request passing all six checks starts
exactly one test toward the uppercased target with the parsed parameters,
every other request yields an error reply and starts nothing. -/
theorem C10_handle_ctcping_validation (myCall : String) (blocked : List String)
    (call : String) (payload rep : PyVal) :
    (∀ t p k reply,
      handle_ctcping myCall blocked call payload rep
          = CtcpingResult.started t p k reply →
        t = pyUpper call ∧ t ≠ "" ∧ ctcpingCallPattern t = true ∧ t ≠ myCall
          ∧ blocked.contains t = false ∧ pyInt payload = some p
          ∧ 25 ≤ p ∧ p ≤ 140 ∧ pyInt rep = some k ∧ 1 ≤ k ∧ k ≤ 5)
    ∧ (∀ p k, pyUpper call ≠ "" → ctcpingCallPattern (pyUpper call) = true →
        pyUpper call ≠ myCall → blocked.contains (pyUpper call) = false →
        pyInt payload = some p → 25 ≤ p → p ≤ 140 →
        pyInt rep = some k → 1 ≤ k → k ≤ 5 →
        handle_ctcping myCall blocked call payload rep
          = CtcpingResult.started (pyUpper call) p k
              (pingStartReply (pyUpper call) p k)) := by
  constructor
  · intro t p k reply h
    simp only [handle_ctcping] at h
    by_cases h1 : pyUpper call = ""
    · rw [if_pos h1] at h; cases h
    rw [if_neg h1] at h
    cases h2 : ctcpingCallPattern (pyUpper call) with
    | false => rw [if_pos h2] at h; cases h
    | true =>
      rw [if_neg (by simp [h2])] at h
      by_cases h3 : pyUpper call = myCall
      · rw [if_pos h3] at h; cases h
      rw [if_neg h3] at h
      cases h4 : blocked.contains (pyUpper call) with
      | true => rw [if_pos h4] at h; cases h
      | false =>
        rw [if_neg (by rw [h4]; exact Bool.false_ne_true)] at h
        cases hp : pyInt payload with
        | none => simp only [hp] at h; cases h
        | some pv =>
          simp only [hp] at h
          by_cases h5 : pv < 25 ∨ 140 < pv
          · rw [if_pos h5] at h; cases h
          rw [if_neg h5] at h
          cases hk : pyInt rep with
          | none => simp only [hk] at h; cases h
          | some kv =>
            simp only [hk] at h
            by_cases h6 : kv < 1 ∨ 5 < kv
            · rw [if_pos h6] at h; cases h
            rw [if_neg h6] at h
            cases h
            exact ⟨rfl, h1, h2, h3, h4, rfl, by omega, by omega, rfl,
              by omega, by omega⟩
  · intro p k h1 h2 h3 h4 hp hp1 hp2 hk hk1 hk2
    simp only [handle_ctcping]
    rw [if_neg h1, if_neg (by simp [h2]), if_neg h3,
      if_neg (by rw [h4]; exact Bool.false_ne_true)]
    simp only [hp]
    rw [if_neg (by omega)]
    simp only [hk]
    rw [if_neg (by omega)]

/-- C10 witness: a valid request — lower-case call sign, payload given as
the digit string "30", repeat 2 — starts exactly one test toward the
uppercased target. -/
theorem C10_handle_ctcping_validation_witness :
    Ctcping.handle_ctcping "DK5EN" [] "oe5hwn"
        (Ctcping.PyVal.vstr "30") (Ctcping.PyVal.vint 2)
      = Ctcping.CtcpingResult.started "OE5HWN" 30 2
          (Ctcping.pingStartReply "OE5HWN" 30 2) := by
  have h := C10_handle_ctcping_validation "DK5EN" [] "oe5hwn"
    (Ctcping.PyVal.vstr "30") (Ctcping.PyVal.vint 2)
  exact h.2 30 2 (by decide) (by decide) (by decide) (by decide) (by decide)
    (by decide) (by decide) (by decide) (by decide) (by decide)

open Ctcping in
/-- C6: for a ping test of `K` repeats, along every interleaving of ACK
arrivals (including arbitrary duplicates), single-ping timeouts, monitor
polls, the monitor's 300-second expiry and scheduled completion tasks, at
most one summary is ever emitted; once the monitor has terminated —
which the 300-second limit guarantees — exactly one summary has been
emitted; and while the test lives, `completed` never exceeds the number
of distinct completed sequences (duplicate ACKs cannot double-count a
sequence, the completed-sequence set stays duplicate-free, and the test
stays `running`). -/
theorem C6_ping_summary_exactly_once (K : Nat) (pings : List PingRec)
    (tr : List PingAction) :
    (runPing (initPing K pings) tr).emitted ≤ 1
    ∧ ((runPing (initPing K pings) tr).monitorAlive = false →
        (runPing (initPing K pings) tr).emitted = 1)
    ∧ (∀ t, (runPing (initPing K pings) tr).test = some t →
        t.completed ≤ t.completedSeqs.length
          ∧ t.completedSeqs.Nodup ∧ t.status = TestStatus.running) := by
  have h := runPing_inv tr (initPing K pings) (initPing_inv K pings)
  exact ⟨h.1, h.2.2.1, h.2.2.2⟩

/-- C6 witness: a one-repeat test receiving the ACK, a duplicate of the
same ACK, and then the scheduled completion task emits exactly one
summary and terminates the monitor. -/
theorem C6_ping_summary_exactly_once_witness :
    (Ctcping.runPing (Ctcping.initPing 1 [⟨100, 1⟩])
        [Ctcping.PingAction.ack 100, Ctcping.PingAction.ack 100,
         Ctcping.PingAction.completeTask]).emitted = 1 := by
  have h := C6_ping_summary_exactly_once 1 [⟨100, 1⟩]
    [Ctcping.PingAction.ack 100, Ctcping.PingAction.ack 100,
     Ctcping.PingAction.completeTask]
  exact h.2.1 (by decide)

end Claims

end McApp
